import Mathlib

/-!
# session-download: a shallow embedding of `downloader.go`

Go strings are byte sequences; they are modelled as lists of byte values
(`Nat`, each below 256 in every string the program builds).  `len`, slicing
and `+` are `List.length`, `List.take` and `++`.  The file system is a map
from path strings to nodes, the network and the failure of system calls
are given by an environment record, and every function that can terminate the
process returns an `Outcome`.  Console output is not part of the state.
-/

namespace SessionDownload

/-! ## Strings -/

/-- A Go `string`: its bytes. -/
abbrev GoString := List Nat

/-- UTF-8 encoding of one code point (the bytes Go stores for a rune). -/
def utf8EncodeRune (c : Nat) : GoString :=
  if c < 128 then [c]
  else if c < 2048 then [192 + c / 64, 128 + c % 64]
  else if c < 65536 then [224 + c / 4096, 128 + c / 64 % 64, 128 + c % 64]
  else [240 + c / 262144 % 8, 128 + c / 4096 % 64, 128 + c / 64 % 64, 128 + c % 64]

/-- The Go string written as the literal `s` (Go source is UTF-8). -/
def goString (s : String) : GoString :=
  s.toList.flatMap (fun c => utf8EncodeRune c.toNat)

/-- Number of Unicode characters of a UTF-8 byte string: the bytes that are
not continuation bytes `10xxxxxx`. -/
def runeCount (s : GoString) : Nat :=
  (s.filter (fun b => b / 64 != 2)).length

/-- The loop of `strings.Replace(s, old, new, -1)` for a non-empty `old`:
scan left to right, replace each non-overlapping occurrence of `old`.  The
first argument counts the bytes of a matched occurrence still to be skipped. -/
def replaceLoop (old new : GoString) : Nat → GoString → GoString
  | _, [] => []
  | skip + 1, _ :: t => replaceLoop old new skip t
  | 0, c :: t =>
    if old.isPrefixOf (c :: t) then new ++ replaceLoop old new (old.length - 1) t
    else c :: replaceLoop old new 0 t

/-- Go `strings.Replace(s, old, new, -1)`, for a non-empty `old` (the only use
in the program is `old = "/"`). -/
def stringsReplace (s old new : GoString) : GoString :=
  replaceLoop old new 0 s

/-- Go `strconv.Itoa`. -/
def Itoa (n : Int) : GoString :=
  goString (toString n)

/-! ## Data model (lines 23-59) -/

/-- The `sess_data` object of a session (the speakers map is never read). -/
structure SessData where
  SessionName : GoString
  Desc : GoString
  Filename : GoString
  HasMp3 : GoString
  HasMp4 : GoString
  SessionNumber : GoString
deriving DecidableEq

/-- The record `Session`. -/
structure Session where
  SessID : Int
  SessData : SessData
deriving DecidableEq

/-- The record `Video` (`Typ` is the field `Type`, a reserved word here). -/
structure Video where
  URL : GoString
  Typ : GoString
  Srt : GoString
deriving DecidableEq

/-! ## WriteCounter (lines 159-181) -/

/-- The record `WriteCounter`; both fields are `uint64`. -/
structure WriteCounter where
  Total : Nat
  FileSize : Nat
deriving DecidableEq

/-- A Go `error` value, by its message. -/
abbrev GoError := String

/-- The method `(wc *WriteCounter) Write`: adds `len(p)` to `Total` in `uint64`
arithmetic and returns `(len(p), nil)`.  `PrintProgress` has a value receiver
and only prints. -/
def WriteCounter.Write (wc : WriteCounter) (p : GoString) :
    WriteCounter × (Nat × Option GoError) :=
  ({ wc with Total := (wc.Total + p.length) % 2 ^ 64 }, (p.length, none))

/-- Writing a sequence of chunks one after another through `Write`: the final
counter and the values returned by the successive calls. -/
def writeChunks : WriteCounter → List GoString → WriteCounter × List (Nat × Option GoError)
  | wc, [] => (wc, [])
  | wc, p :: ps =>
    let r := wc.Write p
    let rest := writeChunks r.1 ps
    (rest.1, r.2 :: rest.2)

/-! ## File names (lines 192-205 and 264) -/

/-- The local variable `name` of `DownloadVideo` after line 202. -/
def videoName (session : Session) : GoString :=
  let name := session.SessData.SessionName
  let extension := goString ".mp4"
  let name := if name.length > 256 then name.take 256 else name
  let name := stringsReplace name (goString "/") (goString "-")
  name ++ extension

/-- The local variable `downloadingPrefix` of `DownloadVideo`. -/
def downloadingPrefix : GoString := goString ".downloading"

/-- The local variable `filepath` of `DownloadVideo`; `sep` is
`string(os.PathSeparator)`. -/
def videoPath (sep : GoString) (session : Session) (dir : GoString) : GoString :=
  dir ++ sep ++ videoName session

/-- The temporary path `filepath + downloadingPrefix`. -/
def tempPath (sep : GoString) (session : Session) (dir : GoString) : GoString :=
  videoPath sep session dir ++ downloadingPrefix

/-- The file name part of `filename` in `writeVideoDetails` (line 264). -/
def sidecarName (session : Session) : GoString :=
  stringsReplace session.SessData.SessionName (goString "/") (goString "-") ++ goString ".txt"

/-- The local variable `filename` of `writeVideoDetails`. -/
def sidecarPath (sep : GoString) (session : Session) (dir : GoString) : GoString :=
  dir ++ sep ++ stringsReplace session.SessData.SessionName (goString "/") (goString "-")
    ++ goString ".txt"

/-- The text `sessionDetails` written by `writeVideoDetails`. -/
def sessionDetails (session : Session) : GoString :=
  session.SessData.SessionName ++ goString "\n\n\n" ++ session.SessData.Desc ++ goString "\n\n"

/-! ## The world: file system, network log, outcomes -/

/-- What a path names: a regular file with its content, or a directory. -/
inductive Node where
  | file (content : GoString)
  | dir
deriving DecidableEq

/-- The file system state: what each path names, if anything. -/
abbrev FS := GoString → Option Node

/-- The state with `p` bound to `n` (or unbound, for `none`). -/
def FS.set (fs : FS) (p : GoString) (n : Option Node) : FS :=
  fun q => if q = p then n else fs q

/-- The path names a regular file. -/
def FS.isFile (fs : FS) (p : GoString) : Bool :=
  match fs p with
  | some (Node.file _) => true
  | _ => false

/-- A request sent to the network. -/
inductive NetCall where
  | player (params : List (GoString × GoString))
  | get (url : GoString)
deriving DecidableEq

/-- The state threaded through the program: the current file system, the
earlier file system states (latest first, one per modification) and the
requests sent so far (in order). -/
structure World where
  fs : FS
  trail : List FS
  net : List NetCall

/-- Every file system state the world has been in, latest first. -/
def World.visited (w : World) : List FS := w.fs :: w.trail

/-- A modification of the file system; the state before it joins the trail. -/
def World.modify (w : World) (f : FS → FS) : World :=
  { w with fs := f w.fs, trail := w.fs :: w.trail }

/-- A request is sent. -/
def World.send (w : World) (c : NetCall) : World :=
  { w with net := w.net ++ [c] }

/-- How a call ends: it returns a value, or `handleError` prints `msg` and
calls `os.Exit(1)`, or the Go runtime panics. -/
inductive Outcome (α : Type) where
  | ret (a : α)
  | fatal (msg : String)
  | panic
deriving DecidableEq

/-- A computation on the world. -/
abbrev Prog (α : Type) := World → Outcome α × World

/-- Sequencing: the second part runs only when the first returns. -/
def Prog.bind {α β : Type} (m : Prog α) (f : α → Prog β) : Prog β :=
  fun w =>
    match m w with
    | (Outcome.ret a, w1) => f a w1
    | (Outcome.fatal msg, w1) => (Outcome.fatal msg, w1)
    | (Outcome.panic, w1) => (Outcome.panic, w1)

/-- The response to `http.Get(video.URL)` as the program uses it: `size` is
`strconv.Atoi` of the `Content-Length` header (0 when it does not parse),
`chunks` are the pieces of the body that `io.Copy` transfers, and `copyErr` is
the error with which the copy ends after them (`none`: end of stream). -/
structure Response where
  size : Int
  chunks : List GoString
  copyErr : Option GoError

/-- The result of `executeGETRequest` up to the body: the three `handleError`
calls of `buildUrl` and `executeGETRequest`, or the body read. -/
inductive Transfer where
  | baseUrlErr
  | newRequestErr
  | doErr
  | body (b : GoString)

/-- The environment of a run: the platform's path separator, the behaviour of
the remote service, the JSON decoder, and which system calls fail on which
paths (`none`: the call succeeds). -/
structure Env where
  pathSeparator : GoString
  statErr : GoString → Bool
  removeErr : GoString → Option GoError
  createErr : GoString → Option GoError
  renameErr : GoString → GoString → Option GoError
  writeFileErr : GoString → Option GoError
  player : List (GoString × GoString) → Transfer
  decodeVideo : GoString → Option Video
  httpGet : GoString → Except GoError Response

/-- The function `handleError` (lines 81-86). -/
def handleError (err : Option GoError) (msg : String) : Prog Unit :=
  fun w =>
    match err with
    | none => (Outcome.ret (), w)
    | some _ => (Outcome.fatal msg, w)

/-- The result of `os.Stat`: the `IsDir` flag of the info, the not-exist
error, or another error (with a nil info). -/
inductive StatResult where
  | info (isDir : Bool)
  | notExist
  | otherErr
deriving DecidableEq

/-- The system call `os.Stat`. -/
def osStat (env : Env) (fs : FS) (filename : GoString) : StatResult :=
  if env.statErr filename then StatResult.otherErr
  else match fs filename with
    | none => StatResult.notExist
    | some (Node.file _) => StatResult.info false
    | some Node.dir => StatResult.info true

/-- The function `FileExists` (lines 183-189).  With an error other than
not-exist, `info` is nil and `info.IsDir()` panics. -/
def FileExists (env : Env) (filename : GoString) : Prog Bool :=
  fun w =>
    match osStat env w.fs filename with
    | StatResult.notExist => (Outcome.ret false, w)
    | StatResult.info isDir => (Outcome.ret (!isDir), w)
    | StatResult.otherErr => (Outcome.panic, w)

/-- A computation that returns `a` and leaves the world as it is. -/
def Prog.ret {α : Type} (a : α) : Prog α :=
  fun w => (Outcome.ret a, w)

/-- The system call `os.Remove` on a file. -/
def osRemove (env : Env) (p : GoString) : Prog (Option GoError) :=
  fun w =>
    match env.removeErr p with
    | some e => (Outcome.ret (some e), w)
    | none => (Outcome.ret none, w.modify (fun fs => fs.set p none))

/-- The system call `os.Create`: an empty regular file at `p`; it fails on a
directory. -/
def osCreate (env : Env) (p : GoString) : Prog (Option GoError) :=
  fun w =>
    match env.createErr p with
    | some e => (Outcome.ret (some e), w)
    | none =>
      match w.fs p with
      | some Node.dir => (Outcome.ret (some "is a directory"), w)
      | _ => (Outcome.ret none, w.modify (fun fs => fs.set p (some (Node.file []))))

/-- The system call `os.Rename`: `newp` takes the node of `oldp`, which
disappears; it fails when `oldp` does not exist or `newp` is a directory. -/
def osRename (env : Env) (oldp newp : GoString) : Prog (Option GoError) :=
  fun w =>
    match env.renameErr oldp newp with
    | some e => (Outcome.ret (some e), w)
    | none =>
      match w.fs oldp, w.fs newp with
      | none, _ => (Outcome.ret (some "no such file or directory"), w)
      | _, some Node.dir => (Outcome.ret (some "file exists"), w)
      | some n, _ =>
        (Outcome.ret none, w.modify (fun fs => (fs.set newp (some n)).set oldp none))

/-- The call `ioutil.WriteFile`: `p` becomes a regular file holding `data`; it
fails on a directory. -/
def writeFile (env : Env) (p data : GoString) : Prog (Option GoError) :=
  fun w =>
    match env.writeFileErr p with
    | some e => (Outcome.ret (some e), w)
    | none =>
      match w.fs p with
      | some Node.dir => (Outcome.ret (some "is a directory"), w)
      | _ => (Outcome.ret none, w.modify (fun fs => fs.set p (some (Node.file data))))

/-- The call `http.Get(url)`: the request is sent; the environment answers. -/
def httpGet (env : Env) (url : GoString) : Prog (Except GoError Response) :=
  fun w => (Outcome.ret (env.httpGet url), w.send (NetCall.get url))

/-- One write of `io.Copy` to the open file `out`: the chunk is appended. -/
def appendFile (out p : GoString) (fs : FS) : FS :=
  match fs out with
  | some (Node.file c) => fs.set out (some (Node.file (c ++ p)))
  | _ => fs

/-- The loop of `io.Copy(out, io.TeeReader(resp.Body, counter))` over the
chunks transferred: each chunk read goes to the counter, then to the file. -/
def copyChunks (out : GoString) : List GoString → WriteCounter → World → WriteCounter × World
  | [], counter, w => (counter, w)
  | p :: ps, counter, w =>
    copyChunks out ps (counter.Write p).1 (w.modify (appendFile out p))

/-- The call `io.Copy(out, io.TeeReader(resp.Body, counter))`: the chunks are
transferred, then the copy ends with the response's error or at end of
stream. -/
def ioCopy (out : GoString) (resp : Response) (counter : WriteCounter) : Prog (Option GoError) :=
  fun w => (Outcome.ret resp.copyErr, (copyChunks out resp.chunks counter w).2)

/-! ## The program -/

/-- The functions `buildUrl` and `executeGETRequest` (lines 89-115): the
request is sent once the URL and the request object are built. -/
def executeGETRequest (env : Env) (params : List (GoString × GoString)) : Prog GoString :=
  fun w =>
    match env.player params with
    | Transfer.baseUrlErr => (Outcome.fatal "BaseUrl", w)
    | Transfer.newRequestErr => (Outcome.fatal "NewRequest", w)
    | Transfer.doErr => (Outcome.fatal "DoRequest", w.send (NetCall.player params))
    | Transfer.body b => (Outcome.ret b, w.send (NetCall.player params))

/-- The function `getVideo` (lines 143-157). -/
def getVideo (env : Env) (sessionId : Int) : Prog Video :=
  let params := [(goString "action", goString "get_video"),
    (goString "session_id", Itoa sessionId)]
  Prog.bind (executeGETRequest env params) fun resp =>
  match env.decodeVideo resp with
  | none => fun w => (Outcome.fatal "Parsing Playlist", w)
  | some session => Prog.ret session

/-- The function `writeVideoDetails` (lines 255-272). -/
def writeVideoDetails (env : Env) (session : Session) (dir : GoString) : Prog Unit :=
  let filename := sidecarPath env.pathSeparator session dir
  Prog.bind (FileExists env filename) fun ex =>
  if !ex then
    Prog.bind (writeFile env filename (sessionDetails session)) fun err =>
    handleError err "WritingSessionDetail"
  else Prog.ret ()

/-- The conversion `uint64(size)` of an `int`. -/
def toUint64 (size : Int) : Nat := (size % 2 ^ 64).toNat

/-- The function `DownloadVideo` (lines 191-253). -/
def DownloadVideo (env : Env) (session : Session) (dir : GoString) : Prog (Option GoError) :=
  let filepath := videoPath env.pathSeparator session dir
  Prog.bind (FileExists env filepath) fun done =>
  if done then Prog.ret none
  else
  Prog.bind (FileExists env (filepath ++ downloadingPrefix)) fun stale =>
  Prog.bind (if stale then osRemove env (filepath ++ downloadingPrefix) else Prog.ret none)
    fun err =>
  match err with
  | some e => Prog.ret (some e)
  | none =>
  Prog.bind (getVideo env session.SessID) fun video =>
  Prog.bind (osCreate env (filepath ++ downloadingPrefix)) fun err =>
  Prog.bind (handleError err "CreatingFile") fun _ =>
  Prog.bind (httpGet env video.URL) fun r =>
  match r with
  | Except.error e => Prog.bind (handleError (some e) "DownloadRequest") fun _ => Prog.ret none
  | Except.ok resp =>
  let counter : WriteCounter := { Total := 0, FileSize := toUint64 resp.size }
  Prog.bind (ioCopy (filepath ++ downloadingPrefix) resp counter) fun err =>
  Prog.bind (handleError err "WritingFile") fun _ =>
  Prog.bind (osRename env (filepath ++ downloadingPrefix) filepath) fun err =>
  Prog.bind (handleError err "RenameDownloadedFile") fun _ =>
  Prog.bind (writeVideoDetails env session dir) fun _ =>
  Prog.ret none

/-- Lines 225-252 of `DownloadVideo` on their own: what runs once the final
path is found absent and no temporary file is left.  `DownloadVideo` continues
with exactly this; the definition serves to state lemmas. -/
def DownloadVideo.fetch (env : Env) (session : Session) (dir : GoString) :
    Prog (Option GoError) :=
  let filepath := videoPath env.pathSeparator session dir
  Prog.bind (getVideo env session.SessID) fun video =>
  Prog.bind (osCreate env (filepath ++ downloadingPrefix)) fun err =>
  Prog.bind (handleError err "CreatingFile") fun _ =>
  Prog.bind (httpGet env video.URL) fun r =>
  match r with
  | Except.error e => Prog.bind (handleError (some e) "DownloadRequest") fun _ => Prog.ret none
  | Except.ok resp =>
  let counter : WriteCounter := { Total := 0, FileSize := toUint64 resp.size }
  Prog.bind (ioCopy (filepath ++ downloadingPrefix) resp counter) fun err =>
  Prog.bind (handleError err "WritingFile") fun _ =>
  Prog.bind (osRename env (filepath ++ downloadingPrefix) filepath) fun err =>
  Prog.bind (handleError err "RenameDownloadedFile") fun _ =>
  Prog.bind (writeVideoDetails env session dir) fun _ =>
  Prog.ret none

/-- The inner loop of `main` (lines 335-339) over the sessions of a playlist. -/
def mainSessions (env : Env) (dir : GoString) : List Session → Prog Unit
  | [] => Prog.ret ()
  | session :: rest =>
    Prog.bind (DownloadVideo env session dir) fun err =>
    Prog.bind (handleError err "DownloadingFile") fun _ =>
    mainSessions env dir rest

/-- A session with the given display name and identifier, other fields empty. -/
def sessionNamed (id : Int) (name : GoString) : Session :=
  { SessID := id,
    SessData := { SessionName := name, Desc := [], Filename := [], HasMp3 := [],
                  HasMp4 := [], SessionNumber := [] } }

/-! ## Success of every operation -/

/-- Every system call and request that `DownloadVideo` can make for the
session succeeds in the environment: the three `os.Stat` calls, the removal
of the temporary file, the descriptor request (answered by `body`, decoded as
`video`), the creation of the temporary file, the GET of the video (answered
by `resp`, streamed to the end), the rename and the writing of the sidecar. -/
structure Succeeds (env : Env) (session : Session) (dir : GoString) (body : GoString)
    (video : Video) (resp : Response) : Prop where
  statFinal : env.statErr (videoPath env.pathSeparator session dir) = false
  statTemp : env.statErr (tempPath env.pathSeparator session dir) = false
  statSidecar : env.statErr (sidecarPath env.pathSeparator session dir) = false
  remove : env.removeErr (tempPath env.pathSeparator session dir) = none
  player : env.player [(goString "action", goString "get_video"),
    (goString "session_id", Itoa session.SessID)] = Transfer.body body
  decode : env.decodeVideo body = some video
  create : env.createErr (tempPath env.pathSeparator session dir) = none
  get : env.httpGet video.URL = Except.ok resp
  copy : resp.copyErr = none
  rename : env.renameErr (tempPath env.pathSeparator session dir)
    (videoPath env.pathSeparator session dir) = none
  write : env.writeFileErr (sidecarPath env.pathSeparator session dir) = none

/-- The file system after a complete download of `body` for the session, from
a state `fs` in which the final path is absent: the final path holds `body`,
the temporary path is absent, and the sidecar is written unless a file of
that name exists. -/
def downloaded (sep : GoString) (session : Session) (dir : GoString) (body : GoString)
    (fs : FS) : FS :=
  let renamed := ((fs.set (tempPath sep session dir) (some (Node.file body))).set
    (videoPath sep session dir) (some (Node.file body))).set (tempPath sep session dir) none
  match fs (sidecarPath sep session dir) with
  | none => renamed.set (sidecarPath sep session dir) (some (Node.file (sessionDetails session)))
  | some _ => renamed

/-! ## Endpoint resolver (lines 274-301) -/

/-- Every element is a byte value. -/
def IsBytes (s : List Nat) : Prop := ∀ b ∈ s, b < 256

/-- The key sizes `aes.NewCipher` accepts. -/
def aesKeySize (n : Nat) : Bool := n == 16 || n == 24 || n == 32

/-- The library functions the resolver calls, with the properties of them
that are used: `base64.StdEncoding` (`b64Decode` gives the bytes decoded and
whether an error is returned) and AES-GCM with the standard nonce and tag
sizes, no additional data (`gcmSeal key nonce plaintext` is
`aesgcm.Seal(nil, nonce, plaintext, nil)` for the cipher of `key`, `gcmOpen`
is `aesgcm.Open`, `none` when it returns an error). -/
structure CryptoLib where
  b64Decode : GoString → List Nat × Bool
  b64Encode : List Nat → GoString
  gcmSeal : List Nat → List Nat → List Nat → List Nat
  gcmOpen : List Nat → List Nat → List Nat → Option (List Nat)
  decode_encode : ∀ bs, IsBytes bs → b64Decode (b64Encode bs) = (bs, false)
  seal_bytes : ∀ key nonce pt, IsBytes key → IsBytes nonce → IsBytes pt →
    IsBytes (gcmSeal key nonce pt)
  open_seal : ∀ key nonce pt, aesKeySize key.length = true → nonce.length = 12 →
    gcmOpen key nonce (gcmSeal key nonce pt) = some pt
  open_short : ∀ key nonce ct, ct.length < 16 → gcmOpen key nonce ct = none

/-- The function `encryptHostname` (lines 274-284).  The parameter `hostname`
is not read: the plaintext is the constant of line 277.  Errors are discarded:
with a key of another size `aes.NewCipher` returns a nil block, on which
`cipher.NewGCM` panics (when `key[:12]` has not panicked before). -/
def encryptHostname (L : CryptoLib) (hostname : GoString) (keyb64 : GoString) :
    Outcome GoString :=
  let key := (L.b64Decode keyb64).1
  let nonce := key.take 12
  let plaintext1 := goString "www.sok-media.com"
  if aesKeySize key.length then
    let ciphertext1 := L.gcmSeal key nonce plaintext1
    let b64Ciphertext := L.b64Encode ciphertext1
    Outcome.ret b64Ciphertext
  else Outcome.panic

/-- The function `getHostname` (lines 285-292).  Errors are discarded: when
`aesgcm.Open` fails, `plaintext` is nil and `string(plaintext)` is the empty
string; with a key of another size `cipher.NewGCM` panics on the nil block. -/
def getHostname (L : CryptoLib) (ciphertextb64 : GoString) (keyb64 : GoString) :
    Outcome GoString :=
  let key := (L.b64Decode keyb64).1
  let ciphertext := (L.b64Decode ciphertextb64).1
  if aesKeySize key.length then
    match L.gcmOpen key (key.take 12) ciphertext with
    | some plaintext => Outcome.ret plaintext
    | none => Outcome.ret []
  else Outcome.panic

/-- The constant `ciphertext` of `main`. -/
def embeddedCiphertext : GoString := goString "JJrO/dE3tmur31VMr/CCN19WbyxZGLQ/WK7EPqW9vLos"

/-- Lines 295-301 of `main`: the value the global `hostname` receives from the
arguments `args` (`os.Args`), or the exit with status 1 after printing
`missing aes key`. -/
def mainHostname (L : CryptoLib) (args : List GoString) : Outcome GoString :=
  match args with
  | [_, key] => getHostname L embeddedCiphertext key
  | _ => Outcome.fatal "missing aes key"

/-- Resolving what `encryptHostname` produced: `getHostname(encryptHostname(h, k), k)`. -/
def roundTrip (L : CryptoLib) (h k : GoString) : Outcome GoString :=
  match encryptHostname L h k with
  | Outcome.ret c => getHostname L c k
  | Outcome.fatal msg => Outcome.fatal msg
  | Outcome.panic => Outcome.panic

/-- A valid key argument: the base64 encoding of 16, 24 or 32 bytes. -/
def ValidKey (L : CryptoLib) (k : GoString) : Prop :=
  ∃ key, IsBytes key ∧ aesKeySize key.length = true ∧ k = L.b64Encode key

/-- The tag of the stand-in sealing: the first 16 bytes of the key (padded). -/
def demoTag (key : List Nat) : List Nat := (key ++ List.replicate 16 0).take 16

/-- A stand-in for the library, to evaluate the resolver on concrete inputs:
a string stands for its own decoding, and sealing appends a 16-byte tag that
depends on the key to the plaintext (the interface of an authenticated
cipher, not a cipher). -/
def demoLib : CryptoLib :=
  { b64Decode := fun s => (s, false),
    b64Encode := fun bs => bs,
    gcmSeal := fun key _ pt => pt ++ demoTag key,
    gcmOpen := fun key _ ct =>
      if 16 ≤ ct.length ∧ ct.drop (ct.length - 16) = demoTag key
      then some (ct.take (ct.length - 16)) else none,
    decode_encode := fun _ _ => rfl,
    seal_bytes := by
      intro key nonce pt hk _ hp b hb
      rcases List.mem_append.mp hb with h | h
      · exact hp b h
      · rcases List.mem_append.mp (List.mem_of_mem_take h) with h2 | h2
        · exact hk b h2
        · rw [List.eq_of_mem_replicate h2]
          decide,
    open_seal := by
      intro key nonce pt _ _
      have hl : (demoTag key).length = 16 := by simp [demoTag]
      simp [hl],
    open_short := by
      intro key nonce ct h
      have : ¬ (16 ≤ ct.length) := by omega
      simp [this] }

/-- A key of 16 bytes. -/
def demoKey : GoString := List.replicate 16 7

/-- Another key of 16 bytes. -/
def otherKey : GoString := List.replicate 16 8

/-! ## Download states -/

/-- The final file and the temporary file are both present in the state. -/
def Both (final temp : GoString) (t : FS) : Prop :=
  t.isFile final = true ∧ t.isFile temp = true

/-- Every state the world has been in is one of the states `init` or has not
both files present. -/
def Tracked (init : List FS) (final temp : GoString) (w : World) : Prop :=
  ∀ t ∈ w.visited, t ∈ init ∨ ¬ Both final temp t

/-- The target is absent: neither the final file nor the temporary file. -/
def Absent (final temp : GoString) (fs : FS) : Prop :=
  fs.isFile final = false ∧ fs.isFile temp = false

/-- The target is in progress: the temporary file and no final file. -/
def InProgress (final temp : GoString) (fs : FS) : Prop :=
  fs.isFile final = false ∧ fs.isFile temp = true

/-- The target is complete: the final file and no temporary file. -/
def Complete (final temp : GoString) (fs : FS) : Prop :=
  fs.isFile final = true ∧ fs.isFile temp = false

/-- The labels of the `handleError` calls that end a run before the temporary
file exists: those of the descriptor request and of `os.Create`. -/
def beforeCreate : List String :=
  ["BaseUrl", "NewRequest", "DoRequest", "Parsing Playlist", "CreatingFile"]

/-- The labels of the `handleError` calls between the creation of the
temporary file and the success of the rename. -/
def beforeCommit : List String :=
  ["DownloadRequest", "WritingFile", "RenameDownloadedFile"]

/-- How a run of `DownloadVideo` that has reached line 225 can end, for the
history and the outcome `r`: no new state has both files, and an exit through
`handleError` leaves the target absent (before the temporary file is
created), in progress (until the rename has succeeded) or complete (the
sidecar could not be written). -/
def FetchPost (init : List FS) (final temp : GoString)
    (r : Outcome (Option GoError) × World) : Prop :=
  Tracked init final temp r.2
    ∧ ∀ msg, r.1 = Outcome.fatal msg →
        (msg ∈ beforeCreate ∧ Absent final temp r.2.fs)
          ∨ (msg ∈ beforeCommit ∧ InProgress final temp r.2.fs)
          ∨ (msg = "WritingSessionDetail" ∧ Complete final temp r.2.fs)

/-! ## Concrete scenarios -/

/-- The query of `getVideo` for a session identifier. -/
def videoParams (sessionId : Int) : List (GoString × GoString) :=
  [(goString "action", goString "get_video"), (goString "session_id", Itoa sessionId)]

/-- The world at the start of a run on the file system `fs`. -/
def World.start (fs : FS) : World := { fs := fs, trail := [], net := [] }

/-- The file system with no file. -/
def emptyFS : FS := fun _ => none

/-- A video descriptor. -/
def demoVideo : Video :=
  { URL := goString "https://cdn.example.org/v.mp4", Typ := goString "video/mp4", Srt := [] }

/-- A response: three bytes in two chunks, the stream ends without error. -/
def demoResponse : Response := { size := 3, chunks := [[1, 2], [3]], copyErr := none }

/-- An environment on a platform with separator `/` in which every system
call and every request succeeds. -/
def idealEnv : Env :=
  { pathSeparator := goString "/",
    statErr := fun _ => false,
    removeErr := fun _ => none,
    createErr := fun _ => none,
    renameErr := fun _ _ => none,
    writeFileErr := fun _ => none,
    player := fun _ => Transfer.body (goString "descriptor"),
    decodeVideo := fun _ => some demoVideo,
    httpGet := fun _ => Except.ok demoResponse }

/-- The ideal environment, except that no file can be removed. -/
def lockedEnv : Env :=
  { idealEnv with removeErr := fun _ => some "permission denied" }

/-- The ideal environment, except that the request to the service fails. -/
def offlineEnv : Env :=
  { idealEnv with player := fun _ => Transfer.doErr }

/-- The session `Keynote`. -/
def keynote : Session := sessionNamed 1 (goString "Keynote")

/-- The session `A/B Testing`. -/
def abTesting : Session := sessionNamed 2 (goString "A/B Testing")

/-- The directory of the first conference. -/
def demoDir : GoString := goString "./BlackHat-2019"

/-! ## File systems with a limit on the length of file names -/

/-- The last component of a path: what follows its last `/`. -/
def baseName (p : GoString) : GoString :=
  (p.reverse.takeWhile (fun b => b != 47)).reverse

/-- The error of a system call on a path whose last component is longer than
255 in the given measure. -/
def nameTooLong (measure : GoString → Nat) (p : GoString) : Option GoError :=
  if 255 < measure (baseName p) then some "file name too long" else none

/-- The ideal environment on a file system that limits a file name to 255
bytes (ext4 and the other Linux file systems): every system call on a longer
name fails. -/
def byteLimitEnv : Env :=
  { idealEnv with
    statErr := fun p => (nameTooLong List.length p).isSome,
    removeErr := nameTooLong List.length,
    createErr := nameTooLong List.length,
    renameErr := fun _ newp => nameTooLong List.length newp,
    writeFileErr := nameTooLong List.length }

/-- The ideal environment on a file system that limits a file name to 255
characters (APFS; HFS+ and NTFS count UTF-16 units, as many as characters for
the names used here): every system call on a longer name fails. -/
def charLimitEnv : Env :=
  { idealEnv with
    statErr := fun p => (nameTooLong runeCount p).isSome,
    removeErr := nameTooLong runeCount,
    createErr := nameTooLong runeCount,
    renameErr := fun _ newp => nameTooLong runeCount newp,
    writeFileErr := nameTooLong runeCount }

/-- A session whose display name is 200 Cyrillic letters `д`: 400 bytes. -/
def longTitle : Session := sessionNamed 3 (goString (String.mk (List.replicate 200 'д')))

/-! ## Strings: lemmas -/

theorem goString_slash : goString "/" = [47] := by decide

theorem goString_dash : goString "-" = [45] := by decide

theorem goString_mp4 : goString ".mp4" = [46, 109, 112, 52] := by decide

theorem goString_txt : goString ".txt" = [46, 116, 120, 116] := by decide

theorem downloadingPrefix_eq :
    downloadingPrefix = [46, 100, 111, 119, 110, 108, 111, 97, 100, 105, 110, 103] := by decide

/-- Replacing `/` by `-` acts byte by byte. -/
theorem stringsReplace_slash (s : GoString) :
    stringsReplace s (goString "/") (goString "-") = s.map (fun b => if b = 47 then 45 else b) := by
  rw [goString_slash, goString_dash]
  unfold stringsReplace
  induction s with
  | nil => rfl
  | cons c t ih =>
    by_cases hc : c = 47
    · simp [replaceLoop, hc, ih]
    · have hc2 : ¬ (47 = c) := fun h => hc h.symm
      simp [replaceLoop, hc, hc2, ih]

theorem stringsReplace_slash_length (s : GoString) :
    (stringsReplace s (goString "/") (goString "-")).length = s.length := by
  simp [stringsReplace_slash]

theorem stringsReplace_slash_free (s : GoString) :
    47 ∉ stringsReplace s (goString "/") (goString "-") := by
  rw [stringsReplace_slash]
  intro h
  obtain ⟨b, -, hb⟩ := List.mem_map.mp h
  by_cases h47 : b = 47
  · simp [h47] at hb
  · simp [h47] at hb

/-- Each encoded code point has exactly one byte that is not a continuation
byte. -/
theorem runeCount_utf8EncodeRune (c : Nat) (hc : c < 2097152) :
    runeCount (utf8EncodeRune c) = 1 := by
  unfold runeCount utf8EncodeRune
  split_ifs with h1 h2 h3
  · have : c / 64 ≠ 2 := by omega
    simp [this]
  · have a1 : (192 + c / 64) / 64 ≠ 2 := by omega
    have a2 : (128 + c % 64) / 64 = 2 := by omega
    simp [a1, a2]
  · have a1 : (224 + c / 4096) / 64 ≠ 2 := by omega
    have a2 : (128 + c / 64 % 64) / 64 = 2 := by omega
    have a3 : (128 + c % 64) / 64 = 2 := by omega
    simp [a1, a2, a3]
  · have a1 : (240 + c / 262144 % 8) / 64 ≠ 2 := by omega
    have a2 : (128 + c / 4096 % 64) / 64 = 2 := by omega
    have a3 : (128 + c / 64 % 64) / 64 = 2 := by omega
    have a4 : (128 + c % 64) / 64 = 2 := by omega
    simp [a1, a2, a3, a4]

theorem runeCount_append (s t : GoString) : runeCount (s ++ t) = runeCount s + runeCount t := by
  simp [runeCount]

/-- On the encoding of a text, `runeCount` is the number of its characters. -/
theorem runeCount_goString (s : String) : runeCount (goString s) = s.length := by
  obtain ⟨l⟩ := s
  show runeCount (l.flatMap fun c => utf8EncodeRune c.toNat) = l.length
  induction l with
  | nil => rfl
  | cons c t ih =>
    have hc : c.toNat < 2097152 := by
      have := c.valid
      rcases this with h | h
      · have : c.toNat < 55296 := h
        omega
      · have : c.toNat < 1114112 := h.2
        omega
    rw [List.flatMap_cons, runeCount_append, ih, runeCount_utf8EncodeRune _ hc,
      List.length_cons]
    omega

/-! ## File names: C7, C8, C9 -/

set_option maxRecDepth 100000

theorem videoName_short (session : Session) (h : session.SessData.SessionName.length ≤ 256) :
    videoName session
      = stringsReplace session.SessData.SessionName (goString "/") (goString "-")
          ++ goString ".mp4" := by
  have h2 : ¬ (session.SessData.SessionName.length > 256) := by omega
  simp [videoName, h2]

theorem videoName_long (session : Session) (h : 256 < session.SessData.SessionName.length) :
    videoName session
      = stringsReplace (session.SessData.SessionName.take 256) (goString "/") (goString "-")
          ++ goString ".mp4" := by
  simp [videoName, h]

theorem runeCount_le_length (s : GoString) : runeCount s ≤ s.length :=
  List.length_filter_le _ _

/-- C7, as amended: for every session display name longer than 256 bytes, the
file name derived by `DownloadVideo` is the first 256 bytes of the name, with
each `/` replaced by `-`, followed by `.mp4`: its pre-extension portion is
exactly 256 bytes long, and holds at most 256 characters. -/
theorem videoName_truncates_bytes (session : Session)
    (h : 256 < session.SessData.SessionName.length) :
    videoName session
        = stringsReplace (session.SessData.SessionName.take 256) (goString "/") (goString "-")
            ++ goString ".mp4"
      ∧ (stringsReplace (session.SessData.SessionName.take 256) (goString "/")
            (goString "-")).length = 256
      ∧ runeCount (stringsReplace (session.SessData.SessionName.take 256) (goString "/")
            (goString "-")) ≤ 256 := by
  have hlen : (stringsReplace (session.SessData.SessionName.take 256) (goString "/")
      (goString "-")).length = 256 := by
    rw [stringsReplace_slash_length, List.length_take]
    omega
  refine ⟨videoName_long session h, hlen, ?_⟩
  have := runeCount_le_length (stringsReplace (session.SessData.SessionName.take 256)
    (goString "/") (goString "-"))
  omega

theorem videoName_truncates_bytes_witness :
    256 < (sessionNamed 1 (List.replicate 300 97)).SessData.SessionName.length
      ∧ (stringsReplace ((sessionNamed 1 (List.replicate 300 97)).SessData.SessionName.take 256)
            (goString "/") (goString "-")).length = 256 :=
  ⟨by rw [show (sessionNamed 1 (List.replicate 300 97)).SessData.SessionName
            = List.replicate 300 97 from rfl, List.length_replicate]; decide,
   (videoName_truncates_bytes (sessionNamed 1 (List.replicate 300 97))
      (by rw [show (sessionNamed 1 (List.replicate 300 97)).SessData.SessionName
            = List.replicate 300 97 from rfl, List.length_replicate]; decide)).2.1⟩

/-- C7, counterexample: the display name made of 257 letters `é` (two bytes
each) is longer than 256 characters, and the derived file name is 128 letters
`é` followed by `.mp4`: no pre-extension portion of 256 characters. -/
theorem videoName_splits_characters :
    256 < runeCount (goString (String.mk (List.replicate 257 'é')))
      ∧ videoName (sessionNamed 1 (goString (String.mk (List.replicate 257 'é'))))
          = goString (String.mk (List.replicate 128 'é')) ++ goString ".mp4"
      ∧ ¬ ∃ stem : GoString,
          videoName (sessionNamed 1 (goString (String.mk (List.replicate 257 'é'))))
            = stem ++ goString ".mp4" ∧ runeCount stem = 256 := by
  have hv : videoName (sessionNamed 1 (goString (String.mk (List.replicate 257 'é'))))
      = goString (String.mk (List.replicate 128 'é')) ++ goString ".mp4" := by
    decide
  refine ⟨?_, hv, ?_⟩
  · rw [runeCount_goString]
    decide
  · rintro ⟨stem, h1, h2⟩
    rw [hv] at h1
    have h3 := List.append_cancel_right h1
    rw [← h3, runeCount_goString] at h2
    revert h2
    decide

theorem videoName_eq_map (session : Session) :
    videoName session
      = ((if session.SessData.SessionName.length > 256
            then session.SessData.SessionName.take 256
            else session.SessData.SessionName).map (fun b => if b = 47 then 45 else b))
          ++ [46, 109, 112, 52] := by
  simp only [videoName, stringsReplace_slash, goString_mp4]

/-- C8: for every session, directory and path separator, the final path is
the directory, the separator and the derived file name, the temporary path is
the directory, the separator and that name followed by `.downloading`, and
neither the derived file name nor the temporary name contains the byte `/`
(47). -/
theorem videoName_no_slash (sep : GoString) (session : Session) (dir : GoString) :
    videoPath sep session dir = dir ++ sep ++ videoName session
      ∧ tempPath sep session dir = dir ++ sep ++ (videoName session ++ goString ".downloading")
      ∧ '/'.toNat ∉ videoName session
      ∧ '/'.toNat ∉ videoName session ++ goString ".downloading" := by
  have h47 : '/'.toNat = 47 := by decide
  have hname : 47 ∉ videoName session := by
    unfold videoName
    intro h
    rcases List.mem_append.mp h with h | h
    · exact stringsReplace_slash_free _ h
    · rw [goString_mp4] at h
      revert h
      decide
  have hdl : goString ".downloading" = downloadingPrefix := rfl
  refine ⟨rfl, ?_, ?_, ?_⟩
  · simp [tempPath, videoPath, hdl]
  · rw [h47]
    exact hname
  · rw [h47, hdl]
    intro h
    rcases List.mem_append.mp h with h | h
    · exact hname h
    · rw [downloadingPrefix_eq] at h
      revert h
      decide

theorem sidecarPath_eq (sep : GoString) (session : Session) (dir : GoString) :
    sidecarPath sep session dir = dir ++ sep ++ sidecarName session := by
  simp [sidecarPath, sidecarName]

/-- For a display name of at most 256 bytes the sidecar and the video share
their name up to the extension. -/
theorem sidecarName_videoName_short (session : Session)
    (h : session.SessData.SessionName.length ≤ 256) :
    ∃ stem : GoString,
      sidecarName session = stem ++ goString ".txt"
        ∧ videoName session = stem ++ goString ".mp4" :=
  ⟨stringsReplace session.SessData.SessionName (goString "/") (goString "-"), rfl,
    videoName_short session h⟩

theorem baseName_append (dir name : GoString) (h : 47 ∉ name) :
    baseName (dir ++ [47] ++ name) = name := by
  unfold baseName
  have hr : (dir ++ [47] ++ name).reverse = name.reverse ++ 47 :: dir.reverse := by simp
  rw [hr, List.takeWhile_append_of_pos]
  · simp [List.takeWhile]
  · intro b hb
    have hb2 : b ∈ name := List.mem_reverse.mp hb
    have : b ≠ 47 := fun e => h (e ▸ hb2)
    simpa using this

theorem videoName_slash_free (session : Session) : 47 ∉ videoName session := by
  unfold videoName
  intro h
  rcases List.mem_append.mp h with h | h
  · exact stringsReplace_slash_free _ h
  · rw [goString_mp4] at h
    revert h
    decide

theorem videoName_length (session : Session) :
    (videoName session).length = min session.SessData.SessionName.length 256 + 4 := by
  unfold videoName
  simp only [List.length_append, stringsReplace_slash_length, goString_mp4]
  split
  · rw [List.length_take]
    simp only [List.length_cons, List.length_nil]
    omega
  · simp only [List.length_cons, List.length_nil]
    omega

/-! ## Progress accounting: C10 -/

theorem writeChunks_cons (wc : WriteCounter) (p : GoString) (ps : List GoString) :
    writeChunks wc (p :: ps)
      = ((writeChunks (wc.Write p).1 ps).1, (wc.Write p).2 :: (writeChunks (wc.Write p).1 ps).2) :=
  rfl

theorem writeChunks_spec (chunks : List GoString) (wc : WriteCounter) (hwc : wc.Total < 2 ^ 64) :
    (writeChunks wc chunks).1.Total = (wc.Total + chunks.flatten.length) % 2 ^ 64
      ∧ (writeChunks wc chunks).1.FileSize = wc.FileSize
      ∧ (writeChunks wc chunks).2 = chunks.map (fun p => (p.length, none)) := by
  induction chunks generalizing wc with
  | nil =>
    refine ⟨?_, rfl, rfl⟩
    simp only [writeChunks, List.flatten_nil, List.length_nil, Nat.add_zero]
    exact (Nat.mod_eq_of_lt hwc).symm
  | cons p ps ih =>
    have hw : (wc.Write p).1.Total < 2 ^ 64 := Nat.mod_lt _ (by decide)
    obtain ⟨h1, h2, h3⟩ := ih (wc.Write p).1 hw
    rw [writeChunks_cons]
    refine ⟨?_, ?_, ?_⟩
    · show (writeChunks (wc.Write p).1 ps).1.Total = _
      rw [h1, List.flatten_cons, List.length_append]
      show ((wc.Total + p.length) % 2 ^ 64 + ps.flatten.length) % 2 ^ 64 = _
      omega
    · show (writeChunks (wc.Write p).1 ps).1.FileSize = _
      rw [h2]
      rfl
    · show (wc.Write p).2 :: (writeChunks (wc.Write p).1 ps).2 = _
      rw [h3]
      rfl

/-- The counter that `io.Copy` leaves is the one the successive `Write` calls
produce. -/
theorem copyChunks_counter (out : GoString) (chunks : List GoString) (wc : WriteCounter)
    (w : World) : (copyChunks out chunks wc w).1 = (writeChunks wc chunks).1 := by
  induction chunks generalizing wc w with
  | nil => rfl
  | cons p ps ih =>
    rw [writeChunks_cons]
    exact ih _ _

/-- C10: for every sequence of chunks of total length below 2^64 written one
after another through `Write` on a counter whose `Total` starts at 0, every
`Write` returns `(len(chunk), nil)`, `Total` is the total length afterwards,
`FileSize` is unchanged, and every other splitting of the same bytes into
chunks ends with the same `Total`; the counter of the copy loop of
`DownloadVideo` is this one. -/
theorem write_counts_bytes (chunks : List GoString) (fileSize : Nat)
    (hN : chunks.flatten.length < 2 ^ 64) :
    (writeChunks { Total := 0, FileSize := fileSize } chunks).2
        = chunks.map (fun p => (p.length, none))
      ∧ (writeChunks { Total := 0, FileSize := fileSize } chunks).1.Total = chunks.flatten.length
      ∧ (writeChunks { Total := 0, FileSize := fileSize } chunks).1.FileSize = fileSize
      ∧ (∀ other : List GoString, other.flatten = chunks.flatten →
          (writeChunks { Total := 0, FileSize := fileSize } other).1.Total
            = (writeChunks { Total := 0, FileSize := fileSize } chunks).1.Total)
      ∧ (∀ (out : GoString) (w : World),
          (copyChunks out chunks { Total := 0, FileSize := fileSize } w).1
            = { Total := chunks.flatten.length, FileSize := fileSize }) := by
  have h0 : (0 : Nat) < 2 ^ 64 := by decide
  obtain ⟨h1, h2, h3⟩ := writeChunks_spec chunks { Total := 0, FileSize := fileSize } h0
  have hT : (writeChunks { Total := 0, FileSize := fileSize } chunks).1.Total
      = chunks.flatten.length := by
    rw [h1]
    show (0 + chunks.flatten.length) % 2 ^ 64 = _
    rw [Nat.zero_add, Nat.mod_eq_of_lt hN]
  refine ⟨h3, hT, h2, ?_, ?_⟩
  · intro other ho
    obtain ⟨g1, -, -⟩ := writeChunks_spec other { Total := 0, FileSize := fileSize } h0
    rw [g1, h1, ho]
  · intro out w
    rw [copyChunks_counter]
    cases hw : (writeChunks { Total := 0, FileSize := fileSize } chunks).1 with
    | mk t f =>
      rw [hw] at hT h2
      simp only at hT h2
      rw [hT, h2]

theorem write_counts_bytes_witness :
    ([[1, 2, 3], [], [4, 5]] : List GoString).flatten.length < 2 ^ 64
      ∧ (writeChunks { Total := 0, FileSize := 7 } [[1, 2, 3], [], [4, 5]]).1.Total
          = ([[1, 2, 3], [], [4, 5]] : List GoString).flatten.length :=
  ⟨by decide, (write_counts_bytes [[1, 2, 3], [], [4, 5]] 7 (by decide)).2.1⟩

/-! ## DownloadVideo: C2, C6 -/

theorem FileExists_world (env : Env) (p : GoString) (w : World) :
    FileExists env p w = ((FileExists env p w).1, w) := by
  unfold FileExists
  split <;> rfl

/-- C2, as amended: for every session, directory and state in which the final
path exists as a regular file (`FileExists` reports true of it),
`DownloadVideo` returns nil and leaves the whole world as it is (the file
system, its history and the list of requests sent: no network call), and so
running it twice in succession is running it once. -/
theorem DownloadVideo_already_present (env : Env) (session : Session) (dir : GoString)
    (w : World)
    (h : (FileExists env (videoPath env.pathSeparator session dir) w).1 = Outcome.ret true) :
    DownloadVideo env session dir w = (Outcome.ret none, w)
      ∧ Prog.bind (DownloadVideo env session dir) (fun _ => DownloadVideo env session dir) w
          = DownloadVideo env session dir w := by
  have h1 : DownloadVideo env session dir w = (Outcome.ret none, w) := by
    have hw := FileExists_world env (videoPath env.pathSeparator session dir) w
    rw [h] at hw
    simp [DownloadVideo, Prog.bind, Prog.ret, hw]
  refine ⟨h1, ?_⟩
  simp only [Prog.bind, h1]

theorem remove_failure_returns (env : Env) (session : Session) (dir : GoString)
    (w : World) (e : GoError)
    (hfinal : (FileExists env (videoPath env.pathSeparator session dir) w).1
      = Outcome.ret false)
    (htemp : (FileExists env (tempPath env.pathSeparator session dir) w).1 = Outcome.ret true)
    (hrm : env.removeErr (tempPath env.pathSeparator session dir) = some e) :
    DownloadVideo env session dir w = (Outcome.ret (some e), w) := by
  have hw := FileExists_world env (videoPath env.pathSeparator session dir) w
  have hw2 := FileExists_world env (tempPath env.pathSeparator session dir) w
  rw [hfinal] at hw
  rw [htemp] at hw2
  unfold tempPath at hw2 hrm
  simp [DownloadVideo, Prog.bind, Prog.ret, hw, hw2, osRemove, hrm]

/-- C6, as amended: when the final path is absent, the temporary path exists
and its removal fails, `DownloadVideo` returns the removal error with the
world as it was (no file created or modified, no request sent), and the loop
of `main` then terminates the run through `handleError`: the remaining
sessions of the playlist are not processed. -/
theorem DownloadVideo_remove_fails (env : Env) (session : Session) (dir : GoString)
    (rest : List Session) (w : World) (e : GoError)
    (hfinal : (FileExists env (videoPath env.pathSeparator session dir) w).1
      = Outcome.ret false)
    (htemp : (FileExists env (tempPath env.pathSeparator session dir) w).1 = Outcome.ret true)
    (hrm : env.removeErr (tempPath env.pathSeparator session dir) = some e) :
    DownloadVideo env session dir w = (Outcome.ret (some e), w)
      ∧ mainSessions env dir (session :: rest) w = (Outcome.fatal "DownloadingFile", w) := by
  have h1 := remove_failure_returns env session dir w e hfinal htemp hrm
  refine ⟨h1, ?_⟩
  simp only [mainSessions, Prog.bind, h1, handleError]

theorem DownloadVideo_already_present_witness :
    (FileExists idealEnv (videoPath idealEnv.pathSeparator keynote demoDir)
        (World.start (emptyFS.set (videoPath idealEnv.pathSeparator keynote demoDir)
          (some (Node.file [7]))))).1 = Outcome.ret true
      ∧ DownloadVideo idealEnv keynote demoDir
          (World.start (emptyFS.set (videoPath idealEnv.pathSeparator keynote demoDir)
            (some (Node.file [7]))))
        = (Outcome.ret none,
            World.start (emptyFS.set (videoPath idealEnv.pathSeparator keynote demoDir)
              (some (Node.file [7])))) :=
  ⟨by decide,
   (DownloadVideo_already_present idealEnv keynote demoDir
      (World.start (emptyFS.set (videoPath idealEnv.pathSeparator keynote demoDir)
        (some (Node.file [7])))) (by decide)).1⟩

theorem DownloadVideo_remove_fails_witness :
    (FileExists lockedEnv (videoPath lockedEnv.pathSeparator keynote demoDir)
        (World.start (emptyFS.set (tempPath lockedEnv.pathSeparator keynote demoDir)
          (some (Node.file [9, 9]))))).1 = Outcome.ret false
      ∧ (FileExists lockedEnv (tempPath lockedEnv.pathSeparator keynote demoDir)
        (World.start (emptyFS.set (tempPath lockedEnv.pathSeparator keynote demoDir)
          (some (Node.file [9, 9]))))).1 = Outcome.ret true
      ∧ lockedEnv.removeErr (tempPath lockedEnv.pathSeparator keynote demoDir)
          = some "permission denied"
      ∧ mainSessions lockedEnv demoDir [keynote, abTesting]
          (World.start (emptyFS.set (tempPath lockedEnv.pathSeparator keynote demoDir)
            (some (Node.file [9, 9]))))
        = (Outcome.fatal "DownloadingFile",
            World.start (emptyFS.set (tempPath lockedEnv.pathSeparator keynote demoDir)
              (some (Node.file [9, 9])))) :=
  ⟨by decide, by decide, rfl,
   (DownloadVideo_remove_fails lockedEnv keynote demoDir [abTesting]
      (World.start (emptyFS.set (tempPath lockedEnv.pathSeparator keynote demoDir)
        (some (Node.file [9, 9])))) "permission denied" (by decide) (by decide) rfl).2⟩

/-- C6, counterexample: the playlist is `Keynote`, `A/B Testing`; the stale
temporary file of `Keynote` cannot be removed.  The run ends in
`handleError` at `Keynote`: no request is sent and the video of `A/B Testing`,
which the loop would download if it went on, is never created. -/
theorem mainSessions_stops_at_failure :
    (FileExists lockedEnv (videoPath lockedEnv.pathSeparator keynote demoDir)
        (World.start (emptyFS.set (tempPath lockedEnv.pathSeparator keynote demoDir)
          (some (Node.file [9, 9]))))).1 = Outcome.ret false
      ∧ (FileExists lockedEnv (tempPath lockedEnv.pathSeparator keynote demoDir)
        (World.start (emptyFS.set (tempPath lockedEnv.pathSeparator keynote demoDir)
          (some (Node.file [9, 9]))))).1 = Outcome.ret true
      ∧ lockedEnv.removeErr (tempPath lockedEnv.pathSeparator keynote demoDir)
          = some "permission denied"
      ∧ (mainSessions lockedEnv demoDir [keynote, abTesting]
          (World.start (emptyFS.set (tempPath lockedEnv.pathSeparator keynote demoDir)
            (some (Node.file [9, 9]))))).1 = Outcome.fatal "DownloadingFile"
      ∧ (mainSessions lockedEnv demoDir [keynote, abTesting]
          (World.start (emptyFS.set (tempPath lockedEnv.pathSeparator keynote demoDir)
            (some (Node.file [9, 9]))))).2.net = []
      ∧ (mainSessions lockedEnv demoDir [keynote, abTesting]
          (World.start (emptyFS.set (tempPath lockedEnv.pathSeparator keynote demoDir)
            (some (Node.file [9, 9]))))).2.fs
          (videoPath lockedEnv.pathSeparator abTesting demoDir) = none
      ∧ (mainSessions lockedEnv demoDir [abTesting]
          (World.start (emptyFS.set (tempPath lockedEnv.pathSeparator keynote demoDir)
            (some (Node.file [9, 9]))))).2.fs
          (videoPath lockedEnv.pathSeparator abTesting demoDir) = some (Node.file [1, 2, 3]) := by
  refine ⟨by decide, by decide, rfl, by decide, by decide, by decide, by decide⟩

/-! ## DownloadVideo: C1 -/

theorem videoPath_last (sep : GoString) (session : Session) (dir : GoString) :
    ∃ a, videoPath sep session dir = a ++ [52] :=
  ⟨dir ++ sep ++ stringsReplace (if session.SessData.SessionName.length > 256
      then session.SessData.SessionName.take 256 else session.SessData.SessionName)
      (goString "/") (goString "-") ++ [46, 109, 112], by
    simp [videoPath, videoName, goString_mp4]⟩

theorem tempPath_last (sep : GoString) (session : Session) (dir : GoString) :
    ∃ a, tempPath sep session dir = a ++ [103] :=
  ⟨videoPath sep session dir ++ [46, 100, 111, 119, 110, 108, 111, 97, 100, 105, 110], by
    simp [tempPath, downloadingPrefix_eq]⟩

theorem sidecarPath_last (sep : GoString) (session : Session) (dir : GoString) :
    ∃ a, sidecarPath sep session dir = a ++ [116] :=
  ⟨dir ++ sep ++ stringsReplace session.SessData.SessionName (goString "/") (goString "-")
      ++ [46, 116, 120], by
    simp [sidecarPath, goString_txt]⟩

theorem last_ne (a b : GoString) (x y : Nat) (h : x ≠ y) : a ++ [x] ≠ b ++ [y] := by
  intro e
  have := List.append_inj' e rfl
  simp at this
  exact h this.2

theorem videoPath_ne_tempPath (sep : GoString) (session : Session) (dir : GoString) :
    videoPath sep session dir ≠ tempPath sep session dir := by
  obtain ⟨a, ha⟩ := videoPath_last sep session dir
  obtain ⟨b, hb⟩ := tempPath_last sep session dir
  rw [ha, hb]
  exact last_ne _ _ _ _ (by decide)

theorem sidecarPath_ne_videoPath (sep : GoString) (session : Session) (dir : GoString) :
    sidecarPath sep session dir ≠ videoPath sep session dir := by
  obtain ⟨a, ha⟩ := videoPath_last sep session dir
  obtain ⟨b, hb⟩ := sidecarPath_last sep session dir
  rw [ha, hb]
  exact last_ne _ _ _ _ (by decide)

theorem sidecarPath_ne_tempPath (sep : GoString) (session : Session) (dir : GoString) :
    sidecarPath sep session dir ≠ tempPath sep session dir := by
  obtain ⟨a, ha⟩ := tempPath_last sep session dir
  obtain ⟨b, hb⟩ := sidecarPath_last sep session dir
  rw [ha, hb]
  exact last_ne _ _ _ _ (by decide)

theorem FS.set_same (fs : FS) (p : GoString) (n : Option Node) : fs.set p n p = n := by
  simp [FS.set]

theorem FS.set_other (fs : FS) (p q : GoString) (n : Option Node) (h : q ≠ p) :
    fs.set p n q = fs q := by
  simp [FS.set, h]

theorem FS.set_set (fs : FS) (p : GoString) (n m : Option Node) :
    (fs.set p n).set p m = fs.set p m := by
  funext q
  by_cases h : q = p <;> simp [FS.set, h]

theorem bind_ret {α β : Type} (m : Prog α) (f : α → Prog β) (w w1 : World) (a : α)
    (h : m w = (Outcome.ret a, w1)) : Prog.bind m f w = f a w1 := by
  simp [Prog.bind, h]

theorem bind_fatal {α β : Type} (m : Prog α) (f : α → Prog β) (w w1 : World) (msg : String)
    (h : m w = (Outcome.fatal msg, w1)) : Prog.bind m f w = (Outcome.fatal msg, w1) := by
  simp [Prog.bind, h]

theorem bind_panic {α β : Type} (m : Prog α) (f : α → Prog β) (w w1 : World)
    (h : m w = (Outcome.panic, w1)) : Prog.bind m f w = (Outcome.panic, w1) := by
  simp [Prog.bind, h]

theorem copyChunks_net (out : GoString) (chunks : List GoString) (wc : WriteCounter)
    (w : World) : (copyChunks out chunks wc w).2.net = w.net := by
  induction chunks generalizing wc w with
  | nil => rfl
  | cons p ps ih => exact ih _ _

theorem copyChunks_fs (out : GoString) (chunks : List GoString) (wc : WriteCounter)
    (w : World) (c : GoString) (h : w.fs out = some (Node.file c)) :
    (copyChunks out chunks wc w).2.fs = w.fs.set out (some (Node.file (c ++ chunks.flatten))) := by
  induction chunks generalizing wc w c with
  | nil =>
    funext q
    by_cases hq : q = out <;> simp [copyChunks, FS.set, hq, h]
  | cons p ps ih =>
    have h1 : (w.modify (appendFile out p)).fs = w.fs.set out (some (Node.file (c ++ p))) := by
      simp [World.modify, appendFile, h]
    have h2 : (w.modify (appendFile out p)).fs out = some (Node.file (c ++ p)) := by
      rw [h1, FS.set_same]
    show (copyChunks out ps (wc.Write p).1 (w.modify (appendFile out p))).2.fs = _
    rw [ih _ _ _ h2, h1, FS.set_set]
    simp

/-- The states a world has been in stay in its history during the copy. -/
theorem copyChunks_trail (out : GoString) (chunks : List GoString) (wc : WriteCounter)
    (w : World) : ∀ t ∈ w.visited, t ∈ (copyChunks out chunks wc w).2.visited := by
  induction chunks generalizing wc w with
  | nil => exact fun t ht => ht
  | cons p ps ih =>
    intro t ht
    apply ih
    simp only [World.visited, World.modify, List.mem_cons] at ht ⊢
    right
    exact ht

theorem World.modify_fs (w : World) (f : FS → FS) : (w.modify f).fs = f w.fs := rfl

theorem World.modify_net (w : World) (f : FS → FS) : (w.modify f).net = w.net := rfl

theorem World.send_fs (w : World) (c : NetCall) : (w.send c).fs = w.fs := rfl

theorem World.send_net (w : World) (c : NetCall) : (w.send c).net = w.net ++ [c] := rfl

/-- The run of `DownloadVideo` after the check of the final path and the
removal of a stale temporary file, when every operation succeeds: from a world
in which neither path exists. -/
theorem DownloadVideo_tail (env : Env) (session : Session) (dir body : GoString)
    (video : Video) (resp : Response) (w : World)
    (hs : Succeeds env session dir body video resp)
    (hfinal : w.fs (videoPath env.pathSeparator session dir) = none)
    (htemp : w.fs (tempPath env.pathSeparator session dir) = none)
    (hside : w.fs (sidecarPath env.pathSeparator session dir) ≠ some Node.dir) :
    (DownloadVideo.fetch env session dir w).1 = Outcome.ret none
      ∧ (DownloadVideo.fetch env session dir w).2.fs
          = downloaded env.pathSeparator session dir resp.chunks.flatten w.fs
      ∧ (DownloadVideo.fetch env session dir w).2.net
          = w.net ++ [NetCall.player (videoParams session.SessID), NetCall.get video.URL]
      ∧ (∀ t ∈ w.visited, t ∈ (DownloadVideo.fetch env session dir w).2.visited)
      ∧ w.fs.set (tempPath env.pathSeparator session dir) (some (Node.file []))
          ∈ (DownloadVideo.fetch env session dir w).2.visited := by
  obtain ⟨h1, h2, h3, h4, h5, h6, h7, h8, h9, h10, h11⟩ := hs
  have n1 := videoPath_ne_tempPath env.pathSeparator session dir
  have n2 := sidecarPath_ne_videoPath env.pathSeparator session dir
  have n3 := sidecarPath_ne_tempPath env.pathSeparator session dir
  unfold tempPath at *
  unfold DownloadVideo.fetch
  simp only []
  -- the descriptor
  have e1 : getVideo env session.SessID w
      = (Outcome.ret video, w.send (NetCall.player (videoParams session.SessID))) := by
    simp [getVideo, executeGETRequest, Prog.bind, Prog.ret, h5, h6, videoParams]
  rw [bind_ret _ _ _ _ _ e1]
  obtain ⟨w1, hw1⟩ : ∃ w1, w1 = w.send (NetCall.player (videoParams session.SessID)) := ⟨_, rfl⟩
  rw [← hw1]
  have f1 : w1.fs = w.fs := by rw [hw1]; rfl
  have g1 : w1.net = w.net ++ [NetCall.player (videoParams session.SessID)] := by rw [hw1]; rfl
  have t1 : ∀ t ∈ w.visited, t ∈ w1.visited := by rw [hw1]; exact fun t ht => ht
  clear hw1 e1
  -- the temporary file is created
  have e2 : osCreate env (videoPath env.pathSeparator session dir ++ downloadingPrefix) w1
      = (Outcome.ret none, w1.modify (fun fs =>
          fs.set (videoPath env.pathSeparator session dir ++ downloadingPrefix)
            (some (Node.file [])))) := by
    simp [osCreate, h7, f1, htemp]
  rw [bind_ret _ _ _ _ _ e2]
  obtain ⟨w2, hw2⟩ : ∃ w2, w2 = w1.modify (fun fs =>
      fs.set (videoPath env.pathSeparator session dir ++ downloadingPrefix)
        (some (Node.file []))) := ⟨_, rfl⟩
  rw [← hw2]
  have f2 : w2.fs = w.fs.set (videoPath env.pathSeparator session dir ++ downloadingPrefix)
      (some (Node.file [])) := by rw [hw2, World.modify_fs, f1]
  have g2 : w2.net = w1.net := by rw [hw2]; rfl
  have t2 : ∀ t ∈ w1.visited, t ∈ w2.visited := by
    rw [hw2]
    intro t ht
    simp only [World.visited, World.modify, List.mem_cons] at ht ⊢
    exact Or.inr ht
  have m2 : w.fs.set (videoPath env.pathSeparator session dir ++ downloadingPrefix)
      (some (Node.file [])) ∈ w2.visited := by
    rw [← f2]
    exact List.mem_cons_self _ _
  clear hw2 e2
  rw [bind_ret _ _ _ _ _ (rfl : handleError none "CreatingFile" w2 = (Outcome.ret (), w2))]
  -- the GET of the video
  have e3 : httpGet env video.URL w2
      = (Outcome.ret (Except.ok resp), w2.send (NetCall.get video.URL)) := by
    simp [httpGet, h8]
  rw [bind_ret _ _ _ _ _ e3]
  obtain ⟨w3, hw3⟩ : ∃ w3, w3 = w2.send (NetCall.get video.URL) := ⟨_, rfl⟩
  rw [← hw3]
  have f3 : w3.fs = w2.fs := by rw [hw3]; rfl
  have g3 : w3.net = w2.net ++ [NetCall.get video.URL] := by rw [hw3]; rfl
  have t3 : ∀ t ∈ w2.visited, t ∈ w3.visited := by rw [hw3]; exact fun t ht => ht
  clear hw3 e3
  simp only []
  -- the copy
  have e4 : ioCopy (videoPath env.pathSeparator session dir ++ downloadingPrefix) resp
      { Total := 0, FileSize := toUint64 resp.size } w3
      = (Outcome.ret none, (copyChunks (videoPath env.pathSeparator session dir
          ++ downloadingPrefix) resp.chunks { Total := 0, FileSize := toUint64 resp.size }
          w3).2) := by
    simp [ioCopy, h9]
  rw [bind_ret _ _ _ _ _ e4]
  obtain ⟨w4, hw4⟩ : ∃ w4, w4 = (copyChunks (videoPath env.pathSeparator session dir
      ++ downloadingPrefix) resp.chunks { Total := 0, FileSize := toUint64 resp.size }
      w3).2 := ⟨_, rfl⟩
  rw [← hw4]
  have f4 : w4.fs = w.fs.set (videoPath env.pathSeparator session dir ++ downloadingPrefix)
      (some (Node.file resp.chunks.flatten)) := by
    rw [hw4, copyChunks_fs _ _ _ _ [] (by rw [f3, f2, FS.set_same]), f3, f2, FS.set_set]
    simp
  have g4 : w4.net = w3.net := by rw [hw4, copyChunks_net]
  have t4 : ∀ t ∈ w3.visited, t ∈ w4.visited := by rw [hw4]; exact copyChunks_trail _ _ _ _
  clear hw4 e4
  rw [bind_ret _ _ _ _ _ (rfl : handleError none "WritingFile" w4 = (Outcome.ret (), w4))]
  -- the rename
  have e5 : osRename env (videoPath env.pathSeparator session dir ++ downloadingPrefix)
      (videoPath env.pathSeparator session dir) w4
      = (Outcome.ret none, w4.modify (fun fs =>
          (fs.set (videoPath env.pathSeparator session dir)
            (some (Node.file resp.chunks.flatten))).set
            (videoPath env.pathSeparator session dir ++ downloadingPrefix) none)) := by
    have a1 : w4.fs (videoPath env.pathSeparator session dir ++ downloadingPrefix)
        = some (Node.file resp.chunks.flatten) := by rw [f4, FS.set_same]
    have a2 : w4.fs (videoPath env.pathSeparator session dir) = none := by
      rw [f4, FS.set_other _ _ _ _ n1, hfinal]
    simp [osRename, h10, a1, a2]
  rw [bind_ret _ _ _ _ _ e5]
  obtain ⟨w5, hw5⟩ : ∃ w5, w5 = w4.modify (fun fs =>
      (fs.set (videoPath env.pathSeparator session dir)
        (some (Node.file resp.chunks.flatten))).set
        (videoPath env.pathSeparator session dir ++ downloadingPrefix) none) := ⟨_, rfl⟩
  rw [← hw5]
  have f5 : w5.fs = ((w.fs.set (videoPath env.pathSeparator session dir ++ downloadingPrefix)
      (some (Node.file resp.chunks.flatten))).set (videoPath env.pathSeparator session dir)
        (some (Node.file resp.chunks.flatten))).set
        (videoPath env.pathSeparator session dir ++ downloadingPrefix) none := by
    rw [hw5, World.modify_fs, f4]
  have g5 : w5.net = w4.net := by rw [hw5]; rfl
  have t5 : ∀ t ∈ w4.visited, t ∈ w5.visited := by
    rw [hw5]
    intro t ht
    simp only [World.visited, World.modify, List.mem_cons] at ht ⊢
    exact Or.inr ht
  clear hw5 e5
  rw [bind_ret _ _ _ _ _ (rfl : handleError none "RenameDownloadedFile" w5 = (Outcome.ret (), w5))]
  -- the sidecar
  have s5 : w5.fs (sidecarPath env.pathSeparator session dir)
      = w.fs (sidecarPath env.pathSeparator session dir) := by
    rw [f5, FS.set_other _ _ _ _ n3, FS.set_other _ _ _ _ n2, FS.set_other _ _ _ _ n3]
  have hnet : w5.net
      = w.net ++ [NetCall.player (videoParams session.SessID), NetCall.get video.URL] := by
    rw [g5, g4, g3, g2, g1]
    simp
  have htr : ∀ t ∈ w.visited, t ∈ w5.visited :=
    fun t ht => t5 t (t4 t (t3 t (t2 t (t1 t ht))))
  have hm : w.fs.set (videoPath env.pathSeparator session dir ++ downloadingPrefix)
      (some (Node.file [])) ∈ w5.visited := t5 _ (t4 _ (t3 _ m2))
  rcases hS : w.fs (sidecarPath env.pathSeparator session dir) with _ | (c | _)
  · have e6 : writeVideoDetails env session dir w5
        = (Outcome.ret (), w5.modify (fun fs => fs.set (sidecarPath env.pathSeparator session dir)
            (some (Node.file (sessionDetails session))))) := by
      simp [writeVideoDetails, Prog.bind, FileExists, osStat, h3, s5, hS, writeFile, h11,
        handleError]
    rw [bind_ret _ _ _ _ _ e6]
    have up : ∀ t ∈ w5.visited, t ∈ (w5.modify (fun fs =>
        fs.set (sidecarPath env.pathSeparator session dir)
          (some (Node.file (sessionDetails session))))).visited := by
      intro t ht
      simp only [World.visited, World.modify, List.mem_cons] at ht ⊢
      exact Or.inr ht
    refine ⟨rfl, ?_, hnet, fun t ht => up t (htr t ht), up _ hm⟩
    show (w5.modify _).fs = _
    rw [World.modify_fs, f5]
    simp [downloaded, hS, tempPath]
  · have e6 : writeVideoDetails env session dir w5 = (Outcome.ret (), w5) := by
      simp [writeVideoDetails, Prog.bind, Prog.ret, FileExists, osStat, h3, s5, hS]
    rw [bind_ret _ _ _ _ _ e6]
    refine ⟨rfl, ?_, hnet, htr, hm⟩
    show w5.fs = _
    rw [f5]
    simp [downloaded, hS, tempPath]
  · exact absurd hS hside

/-- With the final path absent and no temporary file, `DownloadVideo` is its
part from line 225 on. -/
theorem DownloadVideo_fresh (env : Env) (session : Session) (dir : GoString) (w : World)
    (h1 : (FileExists env (videoPath env.pathSeparator session dir) w).1 = Outcome.ret false)
    (h2 : (FileExists env (tempPath env.pathSeparator session dir) w).1 = Outcome.ret false) :
    DownloadVideo env session dir w = DownloadVideo.fetch env session dir w := by
  have e1 := FileExists_world env (videoPath env.pathSeparator session dir) w
  have e2 := FileExists_world env (tempPath env.pathSeparator session dir) w
  rw [h1] at e1
  rw [h2] at e2
  unfold tempPath at e2
  unfold DownloadVideo
  simp only []
  rw [bind_ret _ _ _ _ _ e1]
  simp only [Bool.false_eq_true, if_false]
  rw [bind_ret _ _ _ _ _ e2]
  simp only [Bool.false_eq_true, if_false]
  rw [bind_ret _ _ _ _ _ (rfl : Prog.ret (none : Option GoError) w = (Outcome.ret none, w))]
  rfl

/-- With the final path absent and a temporary file whose removal succeeds,
`DownloadVideo` is the removal followed by its part from line 225 on. -/
theorem DownloadVideo_stale (env : Env) (session : Session) (dir : GoString) (w : World)
    (h1 : (FileExists env (videoPath env.pathSeparator session dir) w).1 = Outcome.ret false)
    (h2 : (FileExists env (tempPath env.pathSeparator session dir) w).1 = Outcome.ret true)
    (h3 : env.removeErr (tempPath env.pathSeparator session dir) = none) :
    DownloadVideo env session dir w
      = DownloadVideo.fetch env session dir
          (w.modify (fun fs => fs.set (tempPath env.pathSeparator session dir) none)) := by
  have e1 := FileExists_world env (videoPath env.pathSeparator session dir) w
  have e2 := FileExists_world env (tempPath env.pathSeparator session dir) w
  rw [h1] at e1
  rw [h2] at e2
  unfold tempPath at e2 h3 ⊢
  have e3 : osRemove env (videoPath env.pathSeparator session dir ++ downloadingPrefix) w
      = (Outcome.ret none, w.modify (fun fs =>
          fs.set (videoPath env.pathSeparator session dir ++ downloadingPrefix) none)) := by
    simp [osRemove, h3]
  unfold DownloadVideo
  simp only []
  rw [bind_ret _ _ _ _ _ e1]
  simp only [Bool.false_eq_true, if_false]
  rw [bind_ret _ _ _ _ _ e2]
  simp only [if_true]
  rw [bind_ret _ _ _ _ _ e3]
  rfl

theorem FileExists_none (env : Env) (p : GoString) (w : World) (hs : env.statErr p = false)
    (h : w.fs p = none) : (FileExists env p w).1 = Outcome.ret false := by
  simp [FileExists, osStat, hs, h]

theorem FileExists_file (env : Env) (p c : GoString) (w : World) (hs : env.statErr p = false)
    (h : w.fs p = some (Node.file c)) : (FileExists env p w).1 = Outcome.ret true := by
  simp [FileExists, osStat, hs, h]

theorem FileExists_dir (env : Env) (p : GoString) (w : World) (hs : env.statErr p = false)
    (h : w.fs p = some Node.dir) : (FileExists env p w).1 = Outcome.ret false := by
  simp [FileExists, osStat, hs, h]

theorem downloaded_final (sep : GoString) (session : Session) (dir body : GoString) (fs : FS) :
    downloaded sep session dir body fs (videoPath sep session dir) = some (Node.file body) := by
  have n1 := videoPath_ne_tempPath sep session dir
  have n2 := (sidecarPath_ne_videoPath sep session dir).symm
  unfold downloaded
  cases fs (sidecarPath sep session dir) <;> simp [FS.set, n1, n2]

theorem downloaded_temp (sep : GoString) (session : Session) (dir body : GoString) (fs : FS) :
    downloaded sep session dir body fs (tempPath sep session dir) = none := by
  have n3 := (sidecarPath_ne_tempPath sep session dir).symm
  unfold downloaded
  cases fs (sidecarPath sep session dir) <;> simp [FS.set, n3]

/-- A resumed run, from any world whose temporary path holds a regular file
and whose final path is absent. -/
theorem resumed_run (env : Env) (session : Session) (dir body : GoString)
    (video : Video) (resp : Response) (w : World) (c : GoString)
    (hs : Succeeds env session dir body video resp)
    (hfinal : w.fs (videoPath env.pathSeparator session dir) = none)
    (htemp : w.fs (tempPath env.pathSeparator session dir) = some (Node.file c))
    (hside : w.fs (sidecarPath env.pathSeparator session dir) ≠ some Node.dir) :
    (DownloadVideo env session dir w).1 = Outcome.ret none
      ∧ (DownloadVideo env session dir w).2.fs
          = downloaded env.pathSeparator session dir resp.chunks.flatten
              (w.fs.set (tempPath env.pathSeparator session dir) none)
      ∧ (DownloadVideo env session dir w).2.net
          = w.net ++ [NetCall.player (videoParams session.SessID), NetCall.get video.URL]
      ∧ w.fs.set (tempPath env.pathSeparator session dir) none
          ∈ (DownloadVideo env session dir w).2.visited
      ∧ w.fs.set (tempPath env.pathSeparator session dir) (some (Node.file []))
          ∈ (DownloadVideo env session dir w).2.visited := by
  have n1 := videoPath_ne_tempPath env.pathSeparator session dir
  have n3 := sidecarPath_ne_tempPath env.pathSeparator session dir
  rw [DownloadVideo_stale env session dir w
    (FileExists_none env _ w hs.statFinal hfinal)
    (FileExists_file env _ c w hs.statTemp htemp) hs.remove]
  obtain ⟨r1, r2, r3, r4, r5⟩ := DownloadVideo_tail env session dir body video resp
    (w.modify (fun fs => fs.set (tempPath env.pathSeparator session dir) none)) hs
    (by rw [World.modify_fs, FS.set_other _ _ _ _ n1, hfinal])
    (by rw [World.modify_fs]; exact FS.set_same _ _ _)
    (by rw [World.modify_fs, FS.set_other _ _ _ _ n3]; exact hside)
  refine ⟨r1, r2, r3, r4 _ (List.mem_cons_self _ _), ?_⟩
  rw [World.modify_fs, FS.set_set] at r5
  exact r5

/-- C1: in every state in which the temporary path holds a regular file of
any content, the final path is absent, and every file system and network
operation of the run succeeds, `DownloadVideo` returns nil; it first removes
the temporary file and recreates it empty, sends the descriptor request and
the GET of the video, and ends with the final path holding exactly the
streamed body and the temporary path absent; and the resulting file system is
the same from every state that differs only in the content of the temporary
file. -/
theorem DownloadVideo_resume (env : Env) (session : Session) (dir body : GoString)
    (video : Video) (resp : Response) (w : World) (c : GoString)
    (hs : Succeeds env session dir body video resp)
    (hfinal : w.fs (videoPath env.pathSeparator session dir) = none)
    (htemp : w.fs (tempPath env.pathSeparator session dir) = some (Node.file c))
    (hside : w.fs (sidecarPath env.pathSeparator session dir) ≠ some Node.dir) :
    (DownloadVideo env session dir w).1 = Outcome.ret none
      ∧ w.fs.set (tempPath env.pathSeparator session dir) none
          ∈ (DownloadVideo env session dir w).2.visited
      ∧ w.fs.set (tempPath env.pathSeparator session dir) (some (Node.file []))
          ∈ (DownloadVideo env session dir w).2.visited
      ∧ (DownloadVideo env session dir w).2.net
          = w.net ++ [NetCall.player (videoParams session.SessID), NetCall.get video.URL]
      ∧ (DownloadVideo env session dir w).2.fs (videoPath env.pathSeparator session dir)
          = some (Node.file resp.chunks.flatten)
      ∧ (DownloadVideo env session dir w).2.fs (tempPath env.pathSeparator session dir) = none
      ∧ ∀ (w2 : World) (c2 : GoString),
          w2.fs = w.fs.set (tempPath env.pathSeparator session dir) (some (Node.file c2)) →
          (DownloadVideo env session dir w2).1 = Outcome.ret none
            ∧ (DownloadVideo env session dir w2).2.fs = (DownloadVideo env session dir w).2.fs := by
  have n1 := videoPath_ne_tempPath env.pathSeparator session dir
  have n3 := sidecarPath_ne_tempPath env.pathSeparator session dir
  obtain ⟨r1, r2, r3, r4, r5⟩ :=
    resumed_run env session dir body video resp w c hs hfinal htemp hside
  refine ⟨r1, r4, r5, r3, ?_, ?_, ?_⟩
  · rw [r2, downloaded_final]
  · rw [r2, downloaded_temp]
  · intro w2 c2 hw2
    obtain ⟨q1, q2, -, -, -⟩ :=
      resumed_run env session dir body video resp w2 c2 hs
        (by rw [hw2, FS.set_other _ _ _ _ n1, hfinal])
        (by rw [hw2, FS.set_same])
        (by rw [hw2, FS.set_other _ _ _ _ n3]; exact hside)
    refine ⟨q1, ?_⟩
    rw [q2, r2, hw2, FS.set_set]

theorem DownloadVideo_resume_witness :
    Succeeds idealEnv keynote demoDir (goString "descriptor") demoVideo demoResponse
      ∧ (World.start (emptyFS.set (tempPath idealEnv.pathSeparator keynote demoDir)
          (some (Node.file [9, 9])))).fs (videoPath idealEnv.pathSeparator keynote demoDir) = none
      ∧ (World.start (emptyFS.set (tempPath idealEnv.pathSeparator keynote demoDir)
          (some (Node.file [9, 9])))).fs (tempPath idealEnv.pathSeparator keynote demoDir)
          = some (Node.file [9, 9])
      ∧ (DownloadVideo idealEnv keynote demoDir
          (World.start (emptyFS.set (tempPath idealEnv.pathSeparator keynote demoDir)
            (some (Node.file [9, 9]))))).2.fs (videoPath idealEnv.pathSeparator keynote demoDir)
          = some (Node.file demoResponse.chunks.flatten) :=
  ⟨⟨rfl, rfl, rfl, rfl, rfl, rfl, rfl, rfl, rfl, rfl, rfl⟩, by decide, by decide,
   (DownloadVideo_resume idealEnv keynote demoDir (goString "descriptor") demoVideo demoResponse
      (World.start (emptyFS.set (tempPath idealEnv.pathSeparator keynote demoDir)
        (some (Node.file [9, 9])))) [9, 9]
      ⟨rfl, rfl, rfl, rfl, rfl, rfl, rfl, rfl, rfl, rfl, rfl⟩ (by decide) (by decide)
      (by decide)).2.2.2.2.1⟩

/-! ## DownloadVideo: C3 -/

theorem FileExists_cases (env : Env) (p : GoString) (w : World) :
    FileExists env p w = (Outcome.ret (w.fs.isFile p), w)
      ∨ FileExists env p w = (Outcome.panic, w) := by
  unfold FileExists osStat FS.isFile
  by_cases hs : env.statErr p = true
  · right
    simp [hs]
  · left
    rcases h : w.fs p with _ | (c | _) <;> simp [hs]

theorem osRemove_cases (env : Env) (p : GoString) (w : World) :
    osRemove env p w = (Outcome.ret none, w.modify (fun fs => fs.set p none))
      ∨ ∃ e, osRemove env p w = (Outcome.ret (some e), w) := by
  unfold osRemove
  rcases h : env.removeErr p with _ | e
  · left; rfl
  · right; exact ⟨e, rfl⟩

theorem osCreate_cases (env : Env) (p : GoString) (w : World) :
    osCreate env p w = (Outcome.ret none, w.modify (fun fs => fs.set p (some (Node.file []))))
      ∨ ∃ e, osCreate env p w = (Outcome.ret (some e), w) := by
  unfold osCreate
  rcases h : env.createErr p with _ | e
  · rcases h2 : w.fs p with _ | (c | _)
    · left; simp
    · left; simp
    · right; exact ⟨"is a directory", by simp⟩
  · right; exact ⟨e, rfl⟩

theorem osRename_cases (env : Env) (oldp newp : GoString) (w : World) :
    (∃ n, w.fs oldp = some n ∧ osRename env oldp newp w
        = (Outcome.ret none, w.modify (fun fs => (fs.set newp (some n)).set oldp none)))
      ∨ ∃ e, osRename env oldp newp w = (Outcome.ret (some e), w) := by
  unfold osRename
  rcases h : env.renameErr oldp newp with _ | e
  · rcases h1 : w.fs oldp with _ | n
    · right; exact ⟨"no such file or directory", by simp⟩
    · rcases h2 : w.fs newp with _ | (c | _)
      · left; exact ⟨n, rfl, by simp⟩
      · left; exact ⟨n, rfl, by simp⟩
      · right; exact ⟨"file exists", by simp⟩
  · right; exact ⟨e, rfl⟩

theorem writeFile_cases (env : Env) (p data : GoString) (w : World) :
    writeFile env p data w
        = (Outcome.ret none, w.modify (fun fs => fs.set p (some (Node.file data))))
      ∨ ∃ e, writeFile env p data w = (Outcome.ret (some e), w) := by
  unfold writeFile
  rcases h : env.writeFileErr p with _ | e
  · rcases h2 : w.fs p with _ | (c | _)
    · left; simp
    · left; simp
    · right; exact ⟨"is a directory", by simp⟩
  · right; exact ⟨e, rfl⟩

theorem getVideo_cases (env : Env) (sessionId : Int) (w : World) :
    (∃ v, getVideo env sessionId w
        = (Outcome.ret v, w.send (NetCall.player (videoParams sessionId))))
      ∨ ∃ msg w1, getVideo env sessionId w = (Outcome.fatal msg, w1)
          ∧ msg ∈ beforeCreate ∧ w1.fs = w.fs ∧ w1.trail = w.trail := by
  unfold getVideo executeGETRequest
  simp only [Prog.bind]
  rcases h : env.player [(goString "action", goString "get_video"),
    (goString "session_id", Itoa sessionId)] with _ | _ | _ | b
  · right; exact ⟨_, w, rfl, by decide, rfl, rfl⟩
  · right; exact ⟨_, w, rfl, by decide, rfl, rfl⟩
  · right; exact ⟨_, _, rfl, by decide, rfl, rfl⟩
  · rcases h2 : env.decodeVideo b with _ | v
    · right
      exact ⟨"Parsing Playlist", w.send (NetCall.player (videoParams sessionId)),
        by simp [h2, videoParams], by decide, rfl, rfl⟩
    · left; exact ⟨v, by simp [h2, Prog.ret, videoParams]⟩

theorem writeVideoDetails_cases (env : Env) (session : Session) (dir : GoString) (w : World) :
    ∃ o, (writeVideoDetails env session dir w = (o, w)
        ∨ writeVideoDetails env session dir w
            = (o, w.modify (fun fs => fs.set (sidecarPath env.pathSeparator session dir)
                (some (Node.file (sessionDetails session))))))
      ∧ (o = Outcome.ret () ∨ o = Outcome.fatal "WritingSessionDetail" ∨ o = Outcome.panic) := by
  unfold writeVideoDetails
  rcases FileExists_cases env (sidecarPath env.pathSeparator session dir) w with h | h
  · rw [bind_ret _ _ _ _ _ h]
    by_cases hf : w.fs.isFile (sidecarPath env.pathSeparator session dir) = true
    · exact ⟨_, Or.inl (by simp [hf, Prog.ret]), Or.inl rfl⟩
    · simp only [hf]
      rcases writeFile_cases env (sidecarPath env.pathSeparator session dir)
        (sessionDetails session) w with h2 | ⟨e, h2⟩
      · exact ⟨_, Or.inr (by simp [bind_ret _ _ _ _ _ h2, handleError]), Or.inl rfl⟩
      · exact ⟨_, Or.inl (by simp [bind_ret _ _ _ _ _ h2, handleError]), Or.inr (Or.inl rfl)⟩
  · rw [bind_panic _ _ _ _ h]
    exact ⟨_, Or.inl rfl, Or.inr (Or.inr rfl)⟩

theorem isFile_set_same (fs : FS) (p : GoString) (n : Option Node) :
    (fs.set p n).isFile p = (match n with | some (Node.file _) => true | _ => false) := by
  simp [FS.isFile, FS.set]

theorem isFile_set_other (fs : FS) (p q : GoString) (n : Option Node) (h : q ≠ p) :
    (fs.set p n).isFile q = fs.isFile q := by
  simp [FS.isFile, FS.set, h]

theorem Tracked_modify (init : List FS) (final temp : GoString) (w : World) (g : FS → FS)
    (h : Tracked init final temp w) (hg : ¬ Both final temp (g w.fs)) :
    Tracked init final temp (w.modify g) := by
  intro t ht
  simp only [World.visited, World.modify, List.mem_cons] at ht
  rcases ht with ht | ht
  · right
    rw [ht]
    exact hg
  · exact h t (by simpa [World.visited] using ht)

theorem not_both_of_inProgress (final temp : GoString) (fs : FS)
    (h : InProgress final temp fs) : ¬ Both final temp fs := by
  intro hb
  have h1 := hb.1
  rw [h.1] at h1
  exact Bool.false_ne_true h1

theorem not_both_of_complete (final temp : GoString) (fs : FS)
    (h : Complete final temp fs) : ¬ Both final temp fs := by
  intro hb
  have h2 := hb.2
  rw [h.2] at h2
  exact Bool.false_ne_true h2

theorem appendFile_inProgress (final temp p : GoString) (fs : FS) (hne : final ≠ temp)
    (h : InProgress final temp fs) : InProgress final temp (appendFile temp p fs) := by
  obtain ⟨h1, h2⟩ := h
  unfold appendFile
  rcases hc : fs temp with _ | (c | _)
  · simp [FS.isFile, hc] at h2
  · exact ⟨by rw [isFile_set_other _ _ _ _ hne]; exact h1, by rw [isFile_set_same]⟩
  · simp [FS.isFile, hc] at h2

theorem copyChunks_inProgress (init : List FS) (final temp : GoString)
    (chunks : List GoString) (wc : WriteCounter) (w : World) (hne : final ≠ temp)
    (hT : Tracked init final temp w) (h : InProgress final temp w.fs) :
    Tracked init final temp (copyChunks temp chunks wc w).2
      ∧ InProgress final temp (copyChunks temp chunks wc w).2.fs := by
  induction chunks generalizing wc w with
  | nil => exact ⟨hT, h⟩
  | cons p ps ih =>
    have h2 := appendFile_inProgress final temp p w.fs hne h
    exact ih _ (w.modify (appendFile temp p))
      (Tracked_modify init final temp w _ hT (not_both_of_inProgress _ _ _ h2)) h2

theorem post_early (init : List FS) (final temp : GoString) (m : String) (w : World)
    (hT : Tracked init final temp w) (hA : Absent final temp w.fs) (hm : m ∈ beforeCreate) :
    FetchPost init final temp (Outcome.fatal m, w) := by
  refine ⟨hT, ?_⟩
  intro msg h
  injection h with h
  subst h
  exact Or.inl ⟨hm, hA⟩

theorem post_mid (init : List FS) (final temp : GoString) (m : String) (w : World)
    (hT : Tracked init final temp w) (hA : InProgress final temp w.fs) (hm : m ∈ beforeCommit) :
    FetchPost init final temp (Outcome.fatal m, w) := by
  refine ⟨hT, ?_⟩
  intro msg h
  injection h with h
  subst h
  exact Or.inr (Or.inl ⟨hm, hA⟩)

theorem post_late (init : List FS) (final temp : GoString) (o : Outcome (Option GoError))
    (w : World) (hT : Tracked init final temp w) (hA : Complete final temp w.fs)
    (ho : ∀ msg, o = Outcome.fatal msg → msg = "WritingSessionDetail") :
    FetchPost init final temp (o, w) := by
  refine ⟨hT, ?_⟩
  intro msg h
  exact Or.inr (Or.inr ⟨ho msg h, hA⟩)

/-- The ends of a run of `DownloadVideo` from line 225, started with the
target absent. -/
theorem fetch_post (env : Env) (session : Session) (dir : GoString) (init : List FS)
    (w : World)
    (hT : Tracked init (videoPath env.pathSeparator session dir)
      (tempPath env.pathSeparator session dir) w)
    (hA : Absent (videoPath env.pathSeparator session dir)
      (tempPath env.pathSeparator session dir) w.fs) :
    FetchPost init (videoPath env.pathSeparator session dir)
      (tempPath env.pathSeparator session dir) (DownloadVideo.fetch env session dir w) := by
  have n1 := videoPath_ne_tempPath env.pathSeparator session dir
  have n2 := sidecarPath_ne_videoPath env.pathSeparator session dir
  have n3 := sidecarPath_ne_tempPath env.pathSeparator session dir
  unfold tempPath at *
  unfold DownloadVideo.fetch
  simp only []
  -- the descriptor
  rcases getVideo_cases env session.SessID w with ⟨video, e1⟩ | ⟨msg, w1, e1, hm, f1, t1⟩
  swap
  · rw [bind_fatal _ _ _ _ _ e1]
    refine post_early _ _ _ _ _ ?_ ?_ hm
    · intro t ht
      apply hT
      simpa [World.visited, f1, t1] using ht
    · rw [f1]
      exact hA
  rw [bind_ret _ _ _ _ _ e1]
  obtain ⟨w1, hw1⟩ : ∃ w1, w1 = w.send (NetCall.player (videoParams session.SessID)) := ⟨_, rfl⟩
  rw [← hw1]
  have T1 : Tracked init (videoPath env.pathSeparator session dir)
      (videoPath env.pathSeparator session dir ++ downloadingPrefix) w1 := by rw [hw1]; exact hT
  have A1 : Absent (videoPath env.pathSeparator session dir)
      (videoPath env.pathSeparator session dir ++ downloadingPrefix) w1.fs := by rw [hw1]; exact hA
  clear hw1 e1
  -- the temporary file
  rcases osCreate_cases env (videoPath env.pathSeparator session dir ++ downloadingPrefix) w1
    with e2 | ⟨e, e2⟩
  swap
  · rw [bind_ret _ _ _ _ _ e2]
    rw [bind_fatal _ _ _ _ _ (rfl : handleError (some e) "CreatingFile" w1
      = (Outcome.fatal "CreatingFile", w1))]
    exact post_early _ _ _ _ _ T1 A1 (by decide)
  rw [bind_ret _ _ _ _ _ e2]
  obtain ⟨w2, hw2⟩ : ∃ w2, w2 = w1.modify (fun fs =>
      fs.set (videoPath env.pathSeparator session dir ++ downloadingPrefix)
        (some (Node.file []))) := ⟨_, rfl⟩
  rw [← hw2]
  have A2 : InProgress (videoPath env.pathSeparator session dir)
      (videoPath env.pathSeparator session dir ++ downloadingPrefix) w2.fs := by
    rw [hw2, World.modify_fs]
    exact ⟨by rw [isFile_set_other _ _ _ _ n1]; exact A1.1, by rw [isFile_set_same]⟩
  have T2 : Tracked init (videoPath env.pathSeparator session dir)
      (videoPath env.pathSeparator session dir ++ downloadingPrefix) w2 := by
    have := A2
    rw [hw2] at this ⊢
    exact Tracked_modify _ _ _ _ _ T1 (not_both_of_inProgress _ _ _ this)
  clear hw2 e2
  rw [bind_ret _ _ _ _ _ (rfl : handleError none "CreatingFile" w2 = (Outcome.ret (), w2))]
  -- the GET of the video
  rw [bind_ret _ _ _ _ _ (rfl : httpGet env video.URL w2
    = (Outcome.ret (env.httpGet video.URL), w2.send (NetCall.get video.URL)))]
  obtain ⟨w3, hw3⟩ : ∃ w3, w3 = w2.send (NetCall.get video.URL) := ⟨_, rfl⟩
  rw [← hw3]
  have T3 : Tracked init (videoPath env.pathSeparator session dir)
      (videoPath env.pathSeparator session dir ++ downloadingPrefix) w3 := by rw [hw3]; exact T2
  have A3 : InProgress (videoPath env.pathSeparator session dir)
      (videoPath env.pathSeparator session dir ++ downloadingPrefix) w3.fs := by
    rw [hw3]; exact A2
  clear hw3
  rcases hget : env.httpGet video.URL with e | resp
  · simp only []
    rw [bind_fatal _ _ _ _ _ (rfl : handleError (some e) "DownloadRequest" w3
      = (Outcome.fatal "DownloadRequest", w3))]
    exact post_mid _ _ _ _ _ T3 A3 (by decide)
  simp only []
  -- the copy
  rw [bind_ret _ _ _ _ _ (rfl : ioCopy (videoPath env.pathSeparator session dir
      ++ downloadingPrefix) resp { Total := 0, FileSize := toUint64 resp.size } w3
    = (Outcome.ret resp.copyErr, (copyChunks (videoPath env.pathSeparator session dir
        ++ downloadingPrefix) resp.chunks { Total := 0, FileSize := toUint64 resp.size }
        w3).2))]
  obtain ⟨T4, A4⟩ := copyChunks_inProgress init _ _ resp.chunks
    { Total := 0, FileSize := toUint64 resp.size } w3 n1 T3 A3
  obtain ⟨w4, hw4⟩ : ∃ w4, w4 = (copyChunks (videoPath env.pathSeparator session dir
      ++ downloadingPrefix) resp.chunks { Total := 0, FileSize := toUint64 resp.size }
      w3).2 := ⟨_, rfl⟩
  rw [← hw4] at T4 A4 ⊢
  clear hw4
  rcases hcopy : resp.copyErr with _ | e
  swap
  · rw [bind_fatal _ _ _ _ _ (rfl : handleError (some e) "WritingFile" w4
      = (Outcome.fatal "WritingFile", w4))]
    exact post_mid _ _ _ _ _ T4 A4 (by decide)
  rw [bind_ret _ _ _ _ _ (rfl : handleError none "WritingFile" w4 = (Outcome.ret (), w4))]
  -- the rename
  rcases osRename_cases env (videoPath env.pathSeparator session dir ++ downloadingPrefix)
    (videoPath env.pathSeparator session dir) w4 with ⟨n, hn, e5⟩ | ⟨e, e5⟩
  swap
  · rw [bind_ret _ _ _ _ _ e5]
    rw [bind_fatal _ _ _ _ _ (rfl : handleError (some e) "RenameDownloadedFile" w4
      = (Outcome.fatal "RenameDownloadedFile", w4))]
    exact post_mid _ _ _ _ _ T4 A4 (by decide)
  rw [bind_ret _ _ _ _ _ e5]
  obtain ⟨w5, hw5⟩ : ∃ w5, w5 = w4.modify (fun fs =>
      (fs.set (videoPath env.pathSeparator session dir) (some n)).set
        (videoPath env.pathSeparator session dir ++ downloadingPrefix) none) := ⟨_, rfl⟩
  rw [← hw5]
  have A5 : Complete (videoPath env.pathSeparator session dir)
      (videoPath env.pathSeparator session dir ++ downloadingPrefix) w5.fs := by
    rw [hw5, World.modify_fs]
    refine ⟨?_, by rw [isFile_set_same]⟩
    rw [isFile_set_other _ _ _ _ n1, isFile_set_same]
    have := A4.2
    simp only [FS.isFile, hn] at this
    cases n with
    | file c => rfl
    | dir => simp at this
  have T5 : Tracked init (videoPath env.pathSeparator session dir)
      (videoPath env.pathSeparator session dir ++ downloadingPrefix) w5 := by
    have := A5
    rw [hw5] at this ⊢
    exact Tracked_modify _ _ _ _ _ T4 (not_both_of_complete _ _ _ this)
  clear hw5 e5
  rw [bind_ret _ _ _ _ _ (rfl : handleError none "RenameDownloadedFile" w5
    = (Outcome.ret (), w5))]
  -- the sidecar
  obtain ⟨o, hw, ho⟩ := writeVideoDetails_cases env session dir w5
  have A6 : Complete (videoPath env.pathSeparator session dir)
      (videoPath env.pathSeparator session dir ++ downloadingPrefix)
      ((w5.modify (fun fs => fs.set (sidecarPath env.pathSeparator session dir)
        (some (Node.file (sessionDetails session))))).fs) := by
    rw [World.modify_fs]
    exact ⟨by rw [isFile_set_other _ _ _ _ n2.symm]; exact A5.1,
      by rw [isFile_set_other _ _ _ _ n3.symm]; exact A5.2⟩
  have T6 : Tracked init (videoPath env.pathSeparator session dir)
      (videoPath env.pathSeparator session dir ++ downloadingPrefix)
      (w5.modify (fun fs => fs.set (sidecarPath env.pathSeparator session dir)
        (some (Node.file (sessionDetails session))))) :=
    Tracked_modify _ _ _ _ _ T5 (not_both_of_complete _ _ _ A6)
  rcases ho with ho | ho | ho
  · subst ho
    rcases hw with hw | hw
    · rw [bind_ret _ _ _ _ _ hw]
      exact post_late _ _ _ _ _ T5 A5 (fun msg h => by simp [Prog.ret] at h)
    · rw [bind_ret _ _ _ _ _ hw]
      exact post_late _ _ _ _ _ T6 A6 (fun msg h => by simp [Prog.ret] at h)
  · subst ho
    rcases hw with hw | hw
    · rw [bind_fatal _ _ _ _ _ hw]
      exact post_late _ _ _ _ _ T5 A5 (fun msg h => by injection h with h; exact h.symm)
    · rw [bind_fatal _ _ _ _ _ hw]
      exact post_late _ _ _ _ _ T6 A6 (fun msg h => by injection h with h; exact h.symm)
  · subst ho
    rcases hw with hw | hw
    · rw [bind_panic _ _ _ _ hw]
      exact post_late _ _ _ _ _ T5 A5 (fun msg h => by simp at h)
    · rw [bind_panic _ _ _ _ hw]
      exact post_late _ _ _ _ _ T6 A6 (fun msg h => by simp at h)

theorem labels_disjoint (m : String) (h1 : m ∈ beforeCreate) (h2 : m ∈ beforeCommit) : False := by
  simp only [beforeCreate, beforeCommit, List.mem_cons, List.mem_singleton, List.not_mem_nil,
    or_false] at h1 h2
  rcases h1 with rfl | rfl | rfl | rfl | rfl <;> simp at h2

theorem label_sidecar_late : "WritingSessionDetail" ∉ beforeCreate
    ∧ "WritingSessionDetail" ∉ beforeCommit := by
  decide

/-- What `FetchPost` gives for the outcome of `DownloadVideo`. -/
theorem states_of_post (init : List FS) (final temp : GoString)
    (r : Outcome (Option GoError) × World) (h : FetchPost init final temp r) :
    (∀ t ∈ r.2.visited, t ∈ init ∨ ¬ Both final temp t)
      ∧ (∀ msg ∈ beforeCreate, r.1 = Outcome.fatal msg → Absent final temp r.2.fs)
      ∧ (∀ msg ∈ beforeCommit, r.1 = Outcome.fatal msg → InProgress final temp r.2.fs) := by
  obtain ⟨hT, hF⟩ := h
  refine ⟨hT, ?_, ?_⟩
  · intro msg hm hr
    rcases hF msg hr with ⟨-, hA⟩ | ⟨hm2, -⟩ | ⟨hm2, -⟩
    · exact hA
    · exact (labels_disjoint msg hm hm2).elim
    · rw [hm2] at hm
      exact (label_sidecar_late.1 hm).elim
  · intro msg hm hr
    rcases hF msg hr with ⟨hm2, -⟩ | ⟨-, hA⟩ | ⟨hm2, -⟩
    · exact (labels_disjoint msg hm2 hm).elim
    · exact hA
    · rw [hm2] at hm
      exact (label_sidecar_late.2 hm).elim

/-- A run that ends without a call of `handleError` and with the world as it
was. -/
theorem post_unchanged (final temp : GoString) (o : Outcome (Option GoError)) (w : World)
    (ho : ∀ msg, o ≠ Outcome.fatal msg) : FetchPost w.visited final temp (o, w) :=
  ⟨fun _ ht => Or.inl ht, fun msg h => (ho msg h).elim⟩

theorem DownloadVideo_post (env : Env) (session : Session) (dir : GoString) (w : World) :
    FetchPost w.visited (videoPath env.pathSeparator session dir)
      (tempPath env.pathSeparator session dir) (DownloadVideo env session dir w) := by
  have n1 := videoPath_ne_tempPath env.pathSeparator session dir
  have hT0 : Tracked w.visited (videoPath env.pathSeparator session dir)
      (tempPath env.pathSeparator session dir) w := fun _ ht => Or.inl ht
  rcases FileExists_cases env (videoPath env.pathSeparator session dir) w with e1 | e1
  swap
  · have : DownloadVideo env session dir w = (Outcome.panic, w) := by
      unfold DownloadVideo
      simp only []
      rw [bind_panic _ _ _ _ e1]
    rw [this]
    exact post_unchanged _ _ _ _ (fun msg h => by simp at h)
  by_cases hf : w.fs.isFile (videoPath env.pathSeparator session dir) = true
  · have : DownloadVideo env session dir w = (Outcome.ret none, w) := by
      rw [hf] at e1
      unfold DownloadVideo
      simp only []
      rw [bind_ret _ _ _ _ _ e1]
      rfl
    rw [this]
    exact post_unchanged _ _ _ _ (fun msg h => by simp at h)
  have hf2 : w.fs.isFile (videoPath env.pathSeparator session dir) = false := by
    simpa using hf
  rw [hf2] at e1
  have h1 : (FileExists env (videoPath env.pathSeparator session dir) w).1
      = Outcome.ret false := by rw [e1]
  rcases FileExists_cases env (tempPath env.pathSeparator session dir) w with e2 | e2
  swap
  · have : DownloadVideo env session dir w = (Outcome.panic, w) := by
      unfold tempPath at e2
      unfold DownloadVideo
      simp only []
      rw [bind_ret _ _ _ _ _ e1]
      simp only [Bool.false_eq_true, if_false]
      rw [bind_panic _ _ _ _ e2]
    rw [this]
    exact post_unchanged _ _ _ _ (fun msg h => by simp at h)
  by_cases ht : w.fs.isFile (tempPath env.pathSeparator session dir) = true
  · rw [ht] at e2
    have h2 : (FileExists env (tempPath env.pathSeparator session dir) w).1
        = Outcome.ret true := by rw [e2]
    rcases hrm : env.removeErr (tempPath env.pathSeparator session dir) with _ | e
    · rw [DownloadVideo_stale env session dir w h1 h2 hrm]
      have hA : Absent (videoPath env.pathSeparator session dir)
          (tempPath env.pathSeparator session dir)
          (w.modify (fun fs => fs.set (tempPath env.pathSeparator session dir) none)).fs := by
        rw [World.modify_fs]
        exact ⟨by rw [isFile_set_other _ _ _ _ n1]; exact hf2, by rw [isFile_set_same]⟩
      refine fetch_post env session dir w.visited _ ?_ hA
      exact Tracked_modify _ _ _ _ _ hT0 (fun hb => by
        have := hb.2
        rw [isFile_set_same] at this
        exact Bool.false_ne_true this)
    · rw [(remove_failure_returns env session dir w e h1 h2 hrm)]
      exact post_unchanged _ _ _ _ (fun msg h => by simp at h)
  · have ht2 : w.fs.isFile (tempPath env.pathSeparator session dir) = false := by
      simpa using ht
    rw [ht2] at e2
    have h2 : (FileExists env (tempPath env.pathSeparator session dir) w).1
        = Outcome.ret false := by rw [e2]
    rw [DownloadVideo_fresh env session dir w h1 h2]
    exact fetch_post env session dir w.visited w hT0 ⟨hf2, ht2⟩

/-- C3, as amended: `DownloadVideo` never makes the final file and the
temporary file both present: every state it passes through either is a state
from before the call or has at most one of them, so if they are not both
present when it starts they never are.  When the run stops in `handleError`
at the descriptor request or at the creation of the temporary file, neither
file is present (the target is absent); when it stops at the GET, the copy or
the rename, the temporary file is present and the final file is not (the
target is in progress); in no such case is the target marked complete. -/
theorem DownloadVideo_states (env : Env) (session : Session) (dir : GoString) (w : World) :
    (∀ t ∈ (DownloadVideo env session dir w).2.visited,
        t ∈ w.visited ∨ ¬ Both (videoPath env.pathSeparator session dir)
          (tempPath env.pathSeparator session dir) t)
      ∧ ((∀ t ∈ w.visited, ¬ Both (videoPath env.pathSeparator session dir)
            (tempPath env.pathSeparator session dir) t) →
          ∀ t ∈ (DownloadVideo env session dir w).2.visited,
            ¬ Both (videoPath env.pathSeparator session dir)
              (tempPath env.pathSeparator session dir) t)
      ∧ (∀ msg ∈ beforeCreate, (DownloadVideo env session dir w).1 = Outcome.fatal msg →
          Absent (videoPath env.pathSeparator session dir)
            (tempPath env.pathSeparator session dir) (DownloadVideo env session dir w).2.fs)
      ∧ (∀ msg ∈ beforeCommit, (DownloadVideo env session dir w).1 = Outcome.fatal msg →
          InProgress (videoPath env.pathSeparator session dir)
            (tempPath env.pathSeparator session dir) (DownloadVideo env session dir w).2.fs) := by
  obtain ⟨h1, h2, h3⟩ := states_of_post _ _ _ _ (DownloadVideo_post env session dir w)
  refine ⟨h1, ?_, h2, h3⟩
  intro h0 t ht
  rcases h1 t ht with h | h
  · exact h0 t h
  · exact h

theorem DownloadVideo_states_witness :
    "DoRequest" ∈ beforeCreate
      ∧ (DownloadVideo offlineEnv keynote demoDir (World.start emptyFS)).1
          = Outcome.fatal "DoRequest"
      ∧ Absent (videoPath offlineEnv.pathSeparator keynote demoDir)
          (tempPath offlineEnv.pathSeparator keynote demoDir)
          (DownloadVideo offlineEnv keynote demoDir (World.start emptyFS)).2.fs :=
  ⟨by decide, by decide,
   (DownloadVideo_states offlineEnv keynote demoDir (World.start emptyFS)).2.2.1
      "DoRequest" (by decide) (by decide)⟩

/-- C3, counterexample: with no file present and the descriptor request
failing, the run stops in `handleError` before the rename and the temporary
file is not present: the target is left absent, not in progress.  And from a
state with both the final and the temporary file, `DownloadVideo` returns nil
with both still present. -/
theorem absent_after_failed_request :
    ((DownloadVideo offlineEnv keynote demoDir (World.start emptyFS)).1
          = Outcome.fatal "DoRequest"
        ∧ (DownloadVideo offlineEnv keynote demoDir (World.start emptyFS)).2.fs.isFile
            (videoPath offlineEnv.pathSeparator keynote demoDir) = false
        ∧ (DownloadVideo offlineEnv keynote demoDir (World.start emptyFS)).2.fs.isFile
            (tempPath offlineEnv.pathSeparator keynote demoDir) = false
        ∧ ¬ InProgress (videoPath offlineEnv.pathSeparator keynote demoDir)
            (tempPath offlineEnv.pathSeparator keynote demoDir)
            (DownloadVideo offlineEnv keynote demoDir (World.start emptyFS)).2.fs)
      ∧ ((DownloadVideo idealEnv keynote demoDir
            (World.start ((emptyFS.set (videoPath idealEnv.pathSeparator keynote demoDir)
              (some (Node.file [1]))).set (tempPath idealEnv.pathSeparator keynote demoDir)
              (some (Node.file [2]))))).1 = Outcome.ret none
        ∧ Both (videoPath idealEnv.pathSeparator keynote demoDir)
            (tempPath idealEnv.pathSeparator keynote demoDir)
            (DownloadVideo idealEnv keynote demoDir
              (World.start ((emptyFS.set (videoPath idealEnv.pathSeparator keynote demoDir)
                (some (Node.file [1]))).set (tempPath idealEnv.pathSeparator keynote demoDir)
                (some (Node.file [2]))))).2.fs) := by
  refine ⟨⟨by decide, by decide, by decide, ?_⟩, by decide, ?_⟩
  · unfold InProgress
    decide
  · unfold Both
    decide

/-! ## Endpoint resolver: C4, C5 -/

theorem IsBytes_take (s : List Nat) (n : Nat) (h : IsBytes s) : IsBytes (s.take n) :=
  fun b hb => h b (List.mem_of_mem_take hb)

theorem IsBytes_hostname : IsBytes (goString "www.sok-media.com") := by
  unfold IsBytes
  decide

theorem nonce_length (key : List Nat) (h : aesKeySize key.length = true) :
    (key.take 12).length = 12 := by
  rw [List.length_take]
  simp only [aesKeySize, Bool.or_eq_true, beq_iff_eq] at h
  omega

theorem encryptHostname_valid (L : CryptoLib) (h key : GoString) (hb : IsBytes key)
    (hlen : aesKeySize key.length = true) :
    encryptHostname L h (L.b64Encode key)
      = Outcome.ret (L.b64Encode (L.gcmSeal key (key.take 12) (goString "www.sok-media.com"))) := by
  simp [encryptHostname, L.decode_encode key hb, hlen]

/-- C4, the behaviour at the failing inputs: for every hostname `h` and every
valid key `k`, `getHostname(encryptHostname(h, k), k)` is the fixed string
`www.sok-media.com`: `encryptHostname` does not read its argument `h`. -/
theorem roundTrip_ignores_hostname (L : CryptoLib) (h k : GoString) (hk : ValidKey L k) :
    roundTrip L h k = Outcome.ret (goString "www.sok-media.com") := by
  obtain ⟨key, hb, hlen, rfl⟩ := hk
  have hs : IsBytes (L.gcmSeal key (key.take 12) (goString "www.sok-media.com")) :=
    L.seal_bytes _ _ _ hb (IsBytes_take _ _ hb) IsBytes_hostname
  unfold roundTrip
  rw [encryptHostname_valid L h key hb hlen]
  simp [getHostname, L.decode_encode key hb, L.decode_encode _ hs, hlen,
    L.open_seal key (key.take 12) _ hlen (nonce_length key hlen)]

theorem validKey_demoKey : ValidKey demoLib demoKey :=
  ⟨demoKey, by unfold IsBytes; decide, by decide, rfl⟩

theorem validKey_otherKey : ValidKey demoLib otherKey :=
  ⟨otherKey, by unfold IsBytes; decide, by decide, rfl⟩

theorem roundTrip_ignores_hostname_witness :
    ValidKey demoLib demoKey
      ∧ roundTrip demoLib (goString "example.org") demoKey
          = Outcome.ret (goString "www.sok-media.com")
      ∧ goString "www.sok-media.com" ≠ goString "example.org" :=
  ⟨validKey_demoKey,
   roundTrip_ignores_hostname demoLib (goString "example.org") demoKey validKey_demoKey,
   by decide⟩

/-- C5, as amended: for every ciphertext and every valid key for which the
authenticated decryption (nonce: the first 12 bytes of the key) fails,
`getHostname` discards the error and returns the empty string to its caller;
with the embedded ciphertext, `main` receives the empty string as hostname
and is not terminated there. -/
theorem getHostname_open_fails (L : CryptoLib) (c k : GoString) (hk : ValidKey L k)
    (hfail : L.gcmOpen (L.b64Decode k).1 ((L.b64Decode k).1.take 12) (L.b64Decode c).1 = none) :
    getHostname L c k = Outcome.ret []
      ∧ (c = embeddedCiphertext → ∀ prog, mainHostname L [prog, k] = Outcome.ret []) := by
  obtain ⟨key, hb, hlen, rfl⟩ := hk
  have h1 : getHostname L c (L.b64Encode key) = Outcome.ret [] := by
    rw [L.decode_encode key hb] at hfail
    simp only [getHostname, L.decode_encode key hb, hlen, if_true]
    simp only [] at hfail
    rw [hfail]
  refine ⟨h1, ?_⟩
  intro hc prog
  subst hc
  exact h1

theorem getHostname_open_fails_witness :
    ValidKey demoLib otherKey
      ∧ demoLib.gcmOpen (demoLib.b64Decode otherKey).1 ((demoLib.b64Decode otherKey).1.take 12)
          (demoLib.b64Decode []).1 = none
      ∧ getHostname demoLib [] otherKey = Outcome.ret [] :=
  ⟨validKey_otherKey, by decide,
   (getHostname_open_fails demoLib [] otherKey validKey_otherKey (by decide)).1⟩

/-- C5, counterexample: the ciphertext is what `encryptHostname` produces
under one key, the key given is another valid key, and the decryption fails;
`getHostname` returns the empty string: it reports no error and does not
terminate the process. -/
theorem getHostname_wrong_key_returns :
    encryptHostname demoLib (goString "www.sok-media.com") demoKey
        = Outcome.ret (goString "www.sok-media.com" ++ demoTag demoKey)
      ∧ ValidKey demoLib otherKey
      ∧ otherKey ≠ demoKey
      ∧ demoLib.gcmOpen (demoLib.b64Decode otherKey).1 ((demoLib.b64Decode otherKey).1.take 12)
          (demoLib.b64Decode (goString "www.sok-media.com" ++ demoTag demoKey)).1 = none
      ∧ getHostname demoLib (goString "www.sok-media.com" ++ demoTag demoKey) otherKey
          = Outcome.ret [] := by
  refine ⟨by decide, validKey_otherKey, by decide, by decide, by decide⟩

/-! ## A directory at the final path: C2 -/

/-- C2, counterexample: the final path of `Keynote` exists, as a directory.
`FileExists` reports false for it, and `DownloadVideo` sends the descriptor
request and the GET of the video, writes the temporary file and ends in
`handleError` at the rename: it does not return nil, the network is used and
the file system changes. -/
theorem DownloadVideo_directory_at_final :
    (World.start (emptyFS.set (videoPath idealEnv.pathSeparator keynote demoDir)
        (some Node.dir))).fs (videoPath idealEnv.pathSeparator keynote demoDir) ≠ none
      ∧ (DownloadVideo idealEnv keynote demoDir
          (World.start (emptyFS.set (videoPath idealEnv.pathSeparator keynote demoDir)
            (some Node.dir)))).1 = Outcome.fatal "RenameDownloadedFile"
      ∧ (DownloadVideo idealEnv keynote demoDir
          (World.start (emptyFS.set (videoPath idealEnv.pathSeparator keynote demoDir)
            (some Node.dir)))).2.net
          = [NetCall.player (videoParams keynote.SessID), NetCall.get demoVideo.URL]
      ∧ (DownloadVideo idealEnv keynote demoDir
          (World.start (emptyFS.set (videoPath idealEnv.pathSeparator keynote demoDir)
            (some Node.dir)))).2.fs (tempPath idealEnv.pathSeparator keynote demoDir)
          = some (Node.file [1, 2, 3])
      ∧ (World.start (emptyFS.set (videoPath idealEnv.pathSeparator keynote demoDir)
          (some Node.dir))).fs (tempPath idealEnv.pathSeparator keynote demoDir) = none := by
  refine ⟨by decide, by decide, by decide, by decide, by decide⟩

/-! ## Names longer than the truncation limit: C9 -/

/-- Where a file name is limited to 255 bytes, a session whose display name
is longer than 251 bytes is not downloaded: the first `os.Stat` fails on the
name of the video and `FileExists` panics, before any request or file. -/
theorem DownloadVideo_name_too_long (env : Env) (session : Session) (dir : GoString)
    (w : World) (hsep : env.pathSeparator = [47])
    (hlimit : ∀ p, 255 < (baseName p).length → env.statErr p = true)
    (hlong : 251 < session.SessData.SessionName.length) :
    DownloadVideo env session dir w = (Outcome.panic, w) := by
  have hb : baseName (videoPath env.pathSeparator session dir) = videoName session := by
    rw [videoPath, hsep]
    exact baseName_append dir _ (videoName_slash_free session)
  have hs : env.statErr (videoPath env.pathSeparator session dir) = true := by
    apply hlimit
    rw [hb, videoName_length]
    omega
  have e1 : FileExists env (videoPath env.pathSeparator session dir) w = (Outcome.panic, w) := by
    simp [FileExists, osStat, hs]
  unfold DownloadVideo
  simp only []
  rw [bind_panic _ _ _ _ e1]

/-- Where a file name is limited to 255 bytes, the sidecar and the video of
every session on which `DownloadVideo` does not panic share their name up to
the extension. -/
theorem names_agree_under_byte_limit (env : Env) (session : Session) (dir : GoString)
    (w : World) (hsep : env.pathSeparator = [47])
    (hlimit : ∀ p, 255 < (baseName p).length → env.statErr p = true)
    (hrun : (DownloadVideo env session dir w).1 ≠ Outcome.panic) :
    ∃ stem : GoString,
      sidecarName session = stem ++ goString ".txt"
        ∧ videoName session = stem ++ goString ".mp4" := by
  apply sidecarName_videoName_short
  by_contra hc
  apply hrun
  rw [DownloadVideo_name_too_long env session dir w hsep hlimit (by omega)]

/-- C9, the failing input: the display name is 200 letters `д` (400 bytes).
On a file system that limits file names to 255 characters `DownloadVideo`
downloads the session: it returns nil, the video is stored under the first
128 letters with `.mp4` and the sidecar under all 200 letters with `.txt`, so
no common name gives the sidecar with `.txt` and the video with `.mp4`.  On
a file system that limits file names to 255 bytes the same call panics in
the first `FileExists`. -/
theorem download_names_differ :
    (DownloadVideo charLimitEnv longTitle demoDir (World.start emptyFS)).1 = Outcome.ret none
      ∧ videoPath charLimitEnv.pathSeparator longTitle demoDir
          = demoDir ++ goString "/" ++ goString (String.mk (List.replicate 128 'д'))
              ++ goString ".mp4"
      ∧ sidecarPath charLimitEnv.pathSeparator longTitle demoDir
          = demoDir ++ goString "/" ++ goString (String.mk (List.replicate 200 'д'))
              ++ goString ".txt"
      ∧ (DownloadVideo charLimitEnv longTitle demoDir (World.start emptyFS)).2.fs
          (videoPath charLimitEnv.pathSeparator longTitle demoDir)
          = some (Node.file [1, 2, 3])
      ∧ (DownloadVideo charLimitEnv longTitle demoDir (World.start emptyFS)).2.fs
          (sidecarPath charLimitEnv.pathSeparator longTitle demoDir)
          = some (Node.file (sessionDetails longTitle))
      ∧ (¬ ∃ stem : GoString,
          sidecarName longTitle = stem ++ goString ".txt"
            ∧ videoName longTitle = stem ++ goString ".mp4")
      ∧ (DownloadVideo byteLimitEnv longTitle demoDir (World.start emptyFS)).1
          = Outcome.panic := by
  have h1 : sidecarName longTitle
      = goString (String.mk (List.replicate 200 'д')) ++ goString ".txt" := by decide
  have h2 : videoName longTitle
      = goString (String.mk (List.replicate 128 'д')) ++ goString ".mp4" := by decide
  refine ⟨by decide, by decide, by decide, by decide, by decide, ?_, by decide⟩
  rintro ⟨stem, e1, e2⟩
  rw [h1] at e1
  rw [h2] at e2
  have a1 := List.append_cancel_right e1
  have a2 := List.append_cancel_right e2
  have : runeCount (goString (String.mk (List.replicate 200 'д')))
      = runeCount (goString (String.mk (List.replicate 128 'д'))) := by
    rw [a1, a2]
  rw [runeCount_goString, runeCount_goString] at this
  revert this
  decide

end SessionDownload
